import Mathlib

/-!
Verification of the Improved_Paint annotation editor's per-tab scene store,
history manager, hit-testing geometry and interaction handlers, as a shallow
embedding of the renderer sources:

* `src/src/renderer/store/AppContext.tsx` — the reducer over per-tab
  annotation collections, draw order and undo/redo history;
* `src/src/renderer/utils/canvas.ts` — `formatStepLabel`,
  `measureTextAnnotation` and `distanceToShape`;
* the canvas component (`src/unnamed/part_006`) — `findAnnotationAt`,
  `handleMouseUp`'s shape-commit branch, the step-placement click handler and
  the Delete/Backspace key handler.

Numbers that flow through the store are embedded as `ℚ` (the reducer never
computes with them, it only stores and copies them); the geometry functions
return real distances (`Math.hypot` is a square root).  JS truthiness of the
optional string fields (`snapshot.imageDataURL`, `snapshot.thumbnail`) is
embedded faithfully: a present empty string is falsy.  The state is the
projection of the global `State` record onto one tab: every reducer case
indexes its per-tab maps by `action.tabId`, so the projection is exact.
-/

namespace ImprovedPaint

/-- Step label style, from `src/src/shared/types.ts` (`'decimal' | 'roman'`). -/
inductive StepStyle
  | decimal
  | roman
deriving DecidableEq

/-- StepIndicator record, from `src/src/shared/types.ts`. -/
structure StepIndicator where
  id : String
  x : ℚ
  y : ℚ
  label : String
  style : StepStyle
  color : String
deriving DecidableEq

/-- Shape kind, from `src/src/shared/types.ts` (`'rect' | 'arrow' | 'blur'`). -/
inductive ShapeType
  | rect
  | arrow
  | blur
deriving DecidableEq

/-- Rect fill mode, from `src/src/shared/types.ts`. -/
inductive RectMode
  | normal
  | blackout
  | whiteout
deriving DecidableEq

/-- Shape record, from `src/src/shared/types.ts` (`blurStrength?` optional). -/
structure Shape where
  id : String
  type : ShapeType
  x1 : ℚ
  y1 : ℚ
  x2 : ℚ
  y2 : ℚ
  color : String
  strokeWidth : ℚ
  filled : Bool
  rectMode : RectMode
  arrowChevrons : Bool
  blurStrength : Option ℚ
deriving DecidableEq

/-- TextAnnotation record, from `src/src/shared/types.ts`.  (Named `TextAnnot`
here; `width`/`height` are the cached measured dimensions.) -/
structure TextAnnot where
  id : String
  x : ℚ
  y : ℚ
  text : String
  fontSize : ℚ
  color : String
  width : ℚ
  height : ℚ
deriving DecidableEq

/-- Tab record, from `src/src/shared/types.ts`. -/
structure Tab where
  id : String
  name : String
  imageDataURL : String
  thumbnail : String
deriving DecidableEq

/-- AnnotationSnapshot, from `AppContext.tsx`: the per-tab undo/redo snapshot;
`imageDataURL`/`thumbnail` are present only for destructive ops (crop /
overlay commit). -/
structure AnnotationSnapshot where
  stepIndicators : List StepIndicator
  shapes : List Shape
  textAnnots : List TextAnnot
  nextStepNumber : Nat
  drawOrder : List String
  imageDataURL : Option String
  thumbnail : Option String
deriving DecidableEq

/-- TabHistory, from `AppContext.tsx`. -/
structure TabHistory where
  undoStack : List AnnotationSnapshot
  redoStack : List AnnotationSnapshot
deriving DecidableEq

/-- The global `State` of `AppContext.tsx` projected onto a single tab id:
the entries of the per-tab records `stepIndicators`, `shapes`,
`textAnnotations`, `drawOrder`, `history`, `nextStepNumber` at that id, the
entry of `state.tabs` with that id (`none` when the tab is absent), and the
global selection fields. -/
structure TabState where
  stepIndicators : List StepIndicator
  shapes : List Shape
  textAnnots : List TextAnnot
  drawOrder : List String
  history : TabHistory
  nextStepNumber : Nat
  tab : Option Tab
  selectedId : Option String
  selectedKind : Option Nat
deriving DecidableEq

/-- Partial update payload for `UPDATE_STEP_INDICATOR` (`Partial<StepIndicator>`):
absent fields keep the old value, exactly as the JS object spread does. -/
structure StepPatch where
  id : Option String := none
  x : Option ℚ := none
  y : Option ℚ := none
  label : Option String := none
  style : Option StepStyle := none
  color : Option String := none
deriving DecidableEq

/-- Partial update payload for `UPDATE_SHAPE` (`Partial<Shape>`). -/
structure ShapePatch where
  id : Option String := none
  type : Option ShapeType := none
  x1 : Option ℚ := none
  y1 : Option ℚ := none
  x2 : Option ℚ := none
  y2 : Option ℚ := none
  color : Option String := none
  strokeWidth : Option ℚ := none
  filled : Option Bool := none
  rectMode : Option RectMode := none
  arrowChevrons : Option Bool := none
  blurStrength : Option (Option ℚ) := none
deriving DecidableEq

/-- Partial update payload for `UPDATE_TEXT_ANNOTATION` (`Partial<TextAnnotation>`). -/
structure TextPatch where
  id : Option String := none
  x : Option ℚ := none
  y : Option ℚ := none
  text : Option String := none
  fontSize : Option ℚ := none
  color : Option String := none
  width : Option ℚ := none
  height : Option ℚ := none
deriving DecidableEq

/-- Entry of the `BATCH_MOVE` payload's `steps` list (`{id, x, y}`). -/
structure BatchStepMove where
  id : String
  x : ℚ
  y : ℚ
deriving DecidableEq

/-- Entry of the `BATCH_MOVE` payload's `shapes` list (`{id, x1, y1, x2, y2}`). -/
structure BatchShapeMove where
  id : String
  x1 : ℚ
  y1 : ℚ
  x2 : ℚ
  y2 : ℚ
deriving DecidableEq

/-- Entry of the `BATCH_MOVE` payload's `texts` list (`{id, x, y}`). -/
structure BatchTextMove where
  id : String
  x : ℚ
  y : ℚ
deriving DecidableEq

/-- Reorder direction of `REORDER_ANNOTATION`. -/
inductive ZDirection
  | front
  | back
deriving DecidableEq

/-- The reducer actions of `AppContext.tsx` that touch a single tab's scene,
history or selection (the `tabId` field is dropped: the state is already the
projection onto that tab). -/
inductive Action
  | ADD_STEP_INDICATOR (indicator : StepIndicator)
  | ADD_SHAPE (shape : Shape)
  | ADD_SHAPES (shapes : List Shape)
  | ADD_TEXT_ANNOTATION (a : TextAnnot)
  | UPDATE_TEXT_ANNOTATION (id : String) (changes : TextPatch) (skipUndo : Bool)
  | UPDATE_SHAPE (id : String) (changes : ShapePatch) (skipUndo : Bool)
  | UPDATE_STEP_INDICATOR (id : String) (changes : StepPatch) (skipUndo : Bool)
  | PUSH_UNDO
  | REMOVE_ANNOTATION (annotationId : String)
  | UNDO
  | REDO
  | CROP_IMAGE (imageDataURL : String) (thumbnail : String)
  | COMMIT_IMAGE_CHANGE (imageDataURL : String) (thumbnail : String)
  | BATCH_MOVE (steps : List BatchStepMove) (shapes : List BatchShapeMove)
      (texts : List BatchTextMove) (skipUndo : Bool)
  | REORDER_ANNOTATION (annotationId : String) (direction : ZDirection)
  | SET_SELECTION (id : Option String) (kind : Option Nat)
deriving DecidableEq

/-- MAX_HISTORY, `AppContext.tsx` line 68. -/
def MAX_HISTORY : Nat := 50

/-- JS `n || 1` on a number that is a natural: `0` is falsy. -/
def orOne (n : Nat) : Nat := if n = 0 then 1 else n

/-- JS truthiness of an optional string field: absent and `""` are falsy. -/
def strTruthy : Option String → Bool
  | none => false
  | some s => s ≠ ""

/-- JS `o || d` for an optional string `o` and default `d`. -/
def jsOr (o : Option String) (d : String) : String :=
  match o with
  | none => d
  | some s => if s = "" then d else s

/-- JS `list.slice(-k)` for `k > 0`: the last `min k length` elements. -/
def sliceLast (k : Nat) (l : List α) : List α := l.drop (l.length - k)

/-- `snapshot(state, tabId)` of `AppContext.tsx`: the current scene of the tab
(the `|| 1` on `nextStepNumber` is JS falsy-defaulting; the `|| []` defaults
are identities on the projection, whose list fields are always present). -/
def snapshot (s : TabState) : AnnotationSnapshot :=
  { stepIndicators := s.stepIndicators
    shapes := s.shapes
    textAnnots := s.textAnnots
    nextStepNumber := orOne s.nextStepNumber
    drawOrder := s.drawOrder
    imageDataURL := none
    thumbnail := none }

/-- `pushUndo(state, tabId)` of `AppContext.tsx`: cap the undo stack at the
last `MAX_HISTORY - 1` entries, append the current snapshot, clear redo. -/
def pushUndoHist (s : TabState) : TabHistory :=
  { undoStack := sliceLast (MAX_HISTORY - 1) s.history.undoStack ++ [snapshot s]
    redoStack := [] }

/-- JS `{ ...s, ...changes }` for a step indicator patch. -/
def applyStepPatch (p : StepPatch) (s : StepIndicator) : StepIndicator :=
  { id := p.id.getD s.id, x := p.x.getD s.x, y := p.y.getD s.y
    label := p.label.getD s.label, style := p.style.getD s.style
    color := p.color.getD s.color }

/-- JS `{ ...s, ...changes }` for a shape patch. -/
def applyShapePatch (p : ShapePatch) (s : Shape) : Shape :=
  { id := p.id.getD s.id, type := p.type.getD s.type
    x1 := p.x1.getD s.x1, y1 := p.y1.getD s.y1
    x2 := p.x2.getD s.x2, y2 := p.y2.getD s.y2
    color := p.color.getD s.color, strokeWidth := p.strokeWidth.getD s.strokeWidth
    filled := p.filled.getD s.filled, rectMode := p.rectMode.getD s.rectMode
    arrowChevrons := p.arrowChevrons.getD s.arrowChevrons
    blurStrength := p.blurStrength.getD s.blurStrength }

/-- JS `{ ...t, ...changes }` for a text annotation patch. -/
def applyTextPatch (p : TextPatch) (t : TextAnnot) : TextAnnot :=
  { id := p.id.getD t.id, x := p.x.getD t.x, y := p.y.getD t.y
    text := p.text.getD t.text, fontSize := p.fontSize.getD t.fontSize
    color := p.color.getD t.color, width := p.width.getD t.width
    height := p.height.getD t.height }

/-- JS `new Map(list.map(e => [e.id, e])).get(key)`: `Map.set` overwrites, so
the last entry with the key wins. -/
def mapGetLast (key : String) (f : α → String) (l : List α) : Option α :=
  (l.filter (fun e => f e = key)).getLast?

/-- The `currentWithImage` snapshot of the UNDO/REDO cases: the current scene
snapshot, with the tab's raster attached when the popped snapshot carries a
(JS-truthy) image and the tab exists. -/
def histCWI (s : TabState) (popped : AnnotationSnapshot) : AnnotationSnapshot :=
  match s.tab with
  | some tab =>
    if strTruthy popped.imageDataURL then
      { snapshot s with imageDataURL := some tab.imageDataURL
                        thumbnail := some tab.thumbnail }
    else snapshot s
  | none => snapshot s

/-- The image-restore block of the UNDO/REDO cases: when the popped snapshot
carries a truthy image and the tab exists, the tab's raster and thumbnail are
replaced by the snapshot's (`prev.thumbnail || t.thumbnail`). -/
def restoreTab : Option Tab → AnnotationSnapshot → Option Tab
  | some tab, popped =>
    if strTruthy popped.imageDataURL then
      some { tab with imageDataURL := popped.imageDataURL.getD tab.imageDataURL
                      thumbnail := jsOr popped.thumbnail tab.thumbnail }
    else some tab
  | none, _ => none

/-- The reducer of `AppContext.tsx`, restricted to one tab (every case below
updates only the `action.tabId` entries of the per-tab records, so the
projection is exact; `SET_SELECTION` carries the global selection fields). -/
def reducer (s : TabState) : Action → TabState
  | .ADD_STEP_INDICATOR ind =>
    { s with
      history := pushUndoHist s
      stepIndicators := s.stepIndicators ++ [ind]
      nextStepNumber := orOne s.nextStepNumber + 1
      drawOrder := s.drawOrder ++ [ind.id] }
  | .ADD_SHAPE sh =>
    { s with
      history := pushUndoHist s
      shapes := s.shapes ++ [sh]
      drawOrder := s.drawOrder ++ [sh.id] }
  | .ADD_SHAPES shs =>
    { s with
      history := pushUndoHist s
      shapes := s.shapes ++ shs
      drawOrder := s.drawOrder ++ shs.map Shape.id }
  | .ADD_TEXT_ANNOTATION a =>
    { s with
      history := pushUndoHist s
      textAnnots := s.textAnnots ++ [a]
      drawOrder := s.drawOrder ++ [a.id] }
  | .UPDATE_TEXT_ANNOTATION id changes skipUndo =>
    { s with
      history := if skipUndo then s.history else pushUndoHist s
      textAnnots := s.textAnnots.map fun t =>
        if t.id = id then applyTextPatch changes t else t }
  | .UPDATE_SHAPE id changes skipUndo =>
    { s with
      history := if skipUndo then s.history else pushUndoHist s
      shapes := s.shapes.map fun sh =>
        if sh.id = id then applyShapePatch changes sh else sh }
  | .UPDATE_STEP_INDICATOR id changes skipUndo =>
    { s with
      history := if skipUndo then s.history else pushUndoHist s
      stepIndicators := s.stepIndicators.map fun st =>
        if st.id = id then applyStepPatch changes st else st }
  | .PUSH_UNDO => { s with history := pushUndoHist s }
  | .REMOVE_ANNOTATION aid =>
    { s with
      history := pushUndoHist s
      stepIndicators := s.stepIndicators.filter fun i => i.id ≠ aid
      shapes := s.shapes.filter fun sh => sh.id ≠ aid
      textAnnots := s.textAnnots.filter fun t => t.id ≠ aid
      nextStepNumber :=
        if s.stepIndicators.any (fun i => i.id = aid) then
          max 1 (orOne s.nextStepNumber - 1)
        else orOne s.nextStepNumber
      drawOrder := s.drawOrder.filter fun i => i ≠ aid }
  | .UNDO =>
    match s.history.undoStack.getLast? with
    | none => s
    | some prev =>
      { s with
        stepIndicators := prev.stepIndicators
        shapes := prev.shapes
        textAnnots := prev.textAnnots
        nextStepNumber := prev.nextStepNumber
        drawOrder := prev.drawOrder
        history :=
          { undoStack := s.history.undoStack.dropLast
            redoStack := s.history.redoStack ++ [histCWI s prev] }
        tab := restoreTab s.tab prev }
  | .REDO =>
    match s.history.redoStack.getLast? with
    | none => s
    | some nxt =>
      { s with
        stepIndicators := nxt.stepIndicators
        shapes := nxt.shapes
        textAnnots := nxt.textAnnots
        nextStepNumber := nxt.nextStepNumber
        drawOrder := nxt.drawOrder
        history :=
          { undoStack := s.history.undoStack ++ [histCWI s nxt]
            redoStack := s.history.redoStack.dropLast }
        tab := restoreTab s.tab nxt }
  | .CROP_IMAGE img thumb =>
    match s.tab with
    | none => s
    | some tab =>
      let snapWithImage : AnnotationSnapshot :=
        { snapshot s with imageDataURL := some tab.imageDataURL
                          thumbnail := some tab.thumbnail }
      { s with
        tab := some { tab with imageDataURL := img, thumbnail := thumb }
        stepIndicators := []
        shapes := []
        textAnnots := []
        nextStepNumber := 1
        drawOrder := []
        history :=
          { undoStack := sliceLast (MAX_HISTORY - 1) s.history.undoStack ++ [snapWithImage]
            redoStack := [] } }
  | .COMMIT_IMAGE_CHANGE img thumb =>
    match s.tab with
    | none => s
    | some tab =>
      let snapWithImage : AnnotationSnapshot :=
        { snapshot s with imageDataURL := some tab.imageDataURL
                          thumbnail := some tab.thumbnail }
      { s with
        tab := some { tab with imageDataURL := img, thumbnail := thumb }
        history :=
          { undoStack := sliceLast (MAX_HISTORY - 1) s.history.undoStack ++ [snapWithImage]
            redoStack := [] } }
  | .BATCH_MOVE steps shapes texts skipUndo =>
    { s with
      history := if skipUndo then s.history else pushUndoHist s
      stepIndicators := s.stepIndicators.map fun st =>
        match mapGetLast st.id BatchStepMove.id steps with
        | some m => { st with x := m.x, y := m.y }
        | none => st
      shapes := s.shapes.map fun sh =>
        match mapGetLast sh.id BatchShapeMove.id shapes with
        | some m => { sh with x1 := m.x1, y1 := m.y1, x2 := m.x2, y2 := m.y2 }
        | none => sh
      textAnnots := s.textAnnots.map fun t =>
        match mapGetLast t.id BatchTextMove.id texts with
        | some m => { t with x := m.x, y := m.y }
        | none => t }
  | .REORDER_ANNOTATION aid dir =>
    let hist := pushUndoHist s
    if aid ∈ s.drawOrder then
      let copy := s.drawOrder.erase aid
      { s with
        history := hist
        drawOrder := match dir with
          | .front => copy ++ [aid]
          | .back => aid :: copy }
    else { s with history := hist }
  | .SET_SELECTION id kind => { s with selectedId := id, selectedKind := kind }

/-- The tab entries `ADD_TAB` initializes for a fresh tab: empty collections,
empty draw order, empty history, counter 1, the tab record present. -/
def initTabState (tab : Tab) : TabState :=
  { stepIndicators := []
    shapes := []
    textAnnots := []
    drawOrder := []
    history := { undoStack := [], redoStack := [] }
    nextStepNumber := 1
    tab := some tab
    selectedId := none
    selectedKind := none }

/-- Dispatching a list of actions in order. -/
def applyActions (s : TabState) (acts : List Action) : TabState :=
  acts.foldl reducer s

/-! ## Geometry and hit-testing (`canvas.ts`, canvas component) -/

/-- Roman numerals table of `formatStepLabel` (`canvas.ts`). -/
def romans : List String :=
  ["I", "II", "III", "IV", "V", "VI", "VII", "VIII", "IX", "X",
   "XI", "XII", "XIII", "XIV", "XV", "XVI", "XVII", "XVIII", "XIX", "XX"]

/-- `formatStepLabel(n, style)` of `canvas.ts`: decimal gives `"<n>."`; roman
indexes the table with `romans[n - 1] || n` (out of range — including the JS
index `-1` for `n = 0` — falls back to the number itself). -/
def formatStepLabel (n : Nat) (style : StepStyle) : String :=
  match style with
  | .decimal => toString n ++ "."
  | .roman =>
    (match n with
     | 0 => toString 0
     | m + 1 => romans.getD m (toString (m + 1))) ++ "."

/-- `measureTextAnnotation(ctx, text, fontSize, scale)` of `canvas.ts`,
parameterized by the canvas font metric `m` (the external
`ctx.measureText(line).width`): width is the widest line (empty lines measure
as a single space) plus twice the 6px padding, height is `fontSize * 1.2` per
line plus twice the 3px padding. -/
def measureTextAnnot (m : String → ℚ) (text : String) (fontSize scale : ℚ) : ℚ × ℚ :=
  let fs := fontSize * scale
  let lines := text.splitOn "\n"
  let maxW := (lines.map fun line => m (if line = "" then " " else line)).foldl max 0
  (maxW + (6 * scale) * 2, fs * (6 / 5) * (lines.length : ℚ) + (3 * scale) * 2)

/-- `Math.hypot(a, b)`. -/
noncomputable def hypot (a b : ℚ) : ℝ :=
  Real.sqrt ((a : ℝ) ^ 2 + (b : ℝ) ^ 2)

/-- `distanceToShape(shape, px, py)` of `canvas.ts`: for rect/blur, the
distance to the nearest edge when inside the box, else the distance to the
nearest boundary point; otherwise (the arrow branch) the point-to-segment
distance, with the `lenSq === 0` guard returning the distance to the
coincident endpoint. -/
noncomputable def distanceToShape (s : Shape) (px py : ℚ) : ℝ :=
  if s.type = .rect ∨ s.type = .blur then
    let rx := min s.x1 s.x2
    let ry := min s.y1 s.y2
    let rw := |s.x2 - s.x1|
    let rh := |s.y2 - s.y1|
    let cx := max rx (min px (rx + rw))
    let cy := max ry (min py (ry + rh))
    let edgeDist := hypot (px - cx) (py - cy)
    if rx ≤ px ∧ px ≤ rx + rw ∧ ry ≤ py ∧ py ≤ ry + rh then
      ((min (px - rx) (min (rx + rw - px) (min (py - ry) (ry + rh - py))) : ℚ) : ℝ)
    else edgeDist
  else
    let dx := s.x2 - s.x1
    let dy := s.y2 - s.y1
    let lenSq := dx * dx + dy * dy
    if lenSq = 0 then hypot (px - s.x1) (py - s.y1)
    else
      let t := max 0 (min 1 (((px - s.x1) * dx + (py - s.y1) * dy) / lenSq))
      hypot (px - (s.x1 + t * dx)) (py - (s.y1 + t * dy))

/-- Annotation kind tag of a hit (`'step' | 'shape' | 'text'`). -/
inductive AKind
  | step
  | shape
  | text
deriving DecidableEq

/-- Result record of `findAnnotationAt`: `{id, kind, dist}`. -/
structure Hit where
  id : String
  kind : AKind
  dist : ℝ

/-- JS `!closest || dist < closest.dist`: the running-best test of
`findAnnotationAt`. -/
def beats (dist : ℝ) : Option Hit → Prop
  | none => True
  | some c => dist < c.dist

open Classical in
/-- Loop body of `findAnnotationAt` over `textAnnotations`: inside-the-box
test, candidate distance to the box center. -/
noncomputable def textUpd (m : String → ℚ) (x y : ℚ) (closest : Option Hit)
    (ta : TextAnnot) : Option Hit :=
  if ta.x ≤ x ∧ x ≤ ta.x + (measureTextAnnot m ta.text ta.fontSize 1).1 ∧
      ta.y ≤ y ∧ y ≤ ta.y + (measureTextAnnot m ta.text ta.fontSize 1).2 then
    if beats (hypot (x - (ta.x + (measureTextAnnot m ta.text ta.fontSize 1).1 / 2))
        (y - (ta.y + (measureTextAnnot m ta.text ta.fontSize 1).2 / 2))) closest then
      some ⟨ta.id, .text,
        hypot (x - (ta.x + (measureTextAnnot m ta.text ta.fontSize 1).1 / 2))
          (y - (ta.y + (measureTextAnnot m ta.text ta.fontSize 1).2 / 2))⟩
    else closest
  else closest

open Classical in
/-- Loop body of `findAnnotationAt` over `indicators`: center distance,
threshold `stepSize`. -/
noncomputable def stepUpd (stepSize x y : ℚ) (closest : Option Hit)
    (ind : StepIndicator) : Option Hit :=
  if hypot (ind.x - x) (ind.y - y) < (stepSize : ℝ) ∧
      beats (hypot (ind.x - x) (ind.y - y)) closest then
    some ⟨ind.id, .step, hypot (ind.x - x) (ind.y - y)⟩
  else closest

open Classical in
/-- Loop body of `findAnnotationAt` over `shapes`: `distanceToShape`,
threshold 20. -/
noncomputable def shapeUpd (x y : ℚ) (closest : Option Hit) (sh : Shape) : Option Hit :=
  if distanceToShape sh x y < (20 : ℝ) ∧ beats (distanceToShape sh x y) closest then
    some ⟨sh.id, .shape, distanceToShape sh x y⟩
  else closest

/-- `findAnnotationAt(x, y)` of the canvas component: three sequential loops
over the text annotations, the step indicators and the shapes (in that
order), each tightening the running closest candidate. -/
noncomputable def findAnnotationAt (m : String → ℚ) (texts : List TextAnnot)
    (inds : List StepIndicator) (shapes : List Shape) (stepSize x y : ℚ) :
    Option Hit :=
  shapes.foldl (shapeUpd x y)
    (inds.foldl (stepUpd stepSize x y)
      (texts.foldl (textUpd m x y) none))

/-! ## Interaction handlers (canvas component) -/

/-- Live preview geometry while drawing a shape (`DrawingShape`). -/
structure DrawingShape where
  x1 : ℚ
  y1 : ℚ
  x2 : ℚ
  y2 : ℚ
deriving DecidableEq

/-- Shape-commit decision of `handleMouseUp`: the drawn shape is built and
dispatched with `ADD_SHAPE` only when `|x2 - x1| > 5` or `|y2 - y1| > 5`;
otherwise the drag is discarded (`none`). -/
def drawnShapeCommit (tool : ShapeType) (ds : DrawingShape) (newId color : String)
    (strokeWidth : ℚ) (filled : Bool) (rectMode : RectMode) (arrowChevrons : Bool)
    (blurStrength : ℚ) : Option Shape :=
  if 5 < |ds.x2 - ds.x1| ∨ 5 < |ds.y2 - ds.y1| then
    some { id := newId, type := tool, x1 := ds.x1, y1 := ds.y1, x2 := ds.x2, y2 := ds.y2
           color := color, strokeWidth := strokeWidth, filled := filled
           rectMode := rectMode, arrowChevrons := arrowChevrons
           blurStrength := if tool = .blur then some blurStrength else none }
  else none

/-- Effect of `handleMouseUp`'s shape-drawing branch on the store: dispatch
`ADD_SHAPE` for an above-threshold drag, otherwise leave the store untouched. -/
def handleMouseUpDraw (s : TabState) (tool : ShapeType) (ds : DrawingShape)
    (newId color : String) (strokeWidth : ℚ) (filled : Bool) (rectMode : RectMode)
    (arrowChevrons : Bool) (blurStrength : ℚ) : TabState :=
  match drawnShapeCommit tool ds newId color strokeWidth filled rectMode
      arrowChevrons blurStrength with
  | some sh => reducer s (.ADD_SHAPE sh)
  | none => s

/-- Step placement of `handleCanvasClick`: read `nextStepNumber[tabId] || 1`,
format the label, dispatch `ADD_STEP_INDICATOR`.  Returns the new state and
the label the indicator was given. -/
def placeStep (s : TabState) (newId : String) (style : StepStyle) (color : String)
    (x y : ℚ) : TabState × String :=
  let num := orOne s.nextStepNumber
  let label := formatStepLabel num style
  (reducer s (.ADD_STEP_INDICATOR ⟨newId, x, y, label, style, color⟩), label)

/-- The Delete/Backspace loop of `handleKeyDown`: one `REMOVE_ANNOTATION`
dispatch per selected id. -/
def deleteSelected (s : TabState) (ids : List String) : TabState :=
  ids.foldl (fun st i => reducer st (.REMOVE_ANNOTATION i)) s

/-- The Delete/Backspace branch of `handleKeyDown`: with a non-empty
multi-selection, dispatch `REMOVE_ANNOTATION` for each selected id, then
clear the selection (and the component's `multiIds`); otherwise with a single
`selectedId`, remove it and clear the selection.  Returns the new state and
the new `multiIds`. -/
def handleDeleteKey (s : TabState) (multiIds : List String) : TabState × List String :=
  if multiIds ≠ [] then
    (reducer (deleteSelected s multiIds) (.SET_SELECTION none none), [])
  else
    match s.selectedId with
    | some sel => (reducer (reducer s (.REMOVE_ANNOTATION sel)) (.SET_SELECTION none none), multiIds)
    | none => (s, multiIds)

/-! ## Predicates and candidate lists used by the claims -/

/-- Membership of an annotation id in the tab's step-indicator collection. -/
def memSteps (s : TabState) (i : String) : Bool := s.stepIndicators.any fun a => a.id = i

/-- Membership of an annotation id in the tab's shape collection. -/
def memShapes (s : TabState) (i : String) : Bool := s.shapes.any fun a => a.id = i

/-- Membership of an annotation id in the tab's text-annotation collection. -/
def memTexts (s : TabState) (i : String) : Bool := s.textAnnots.any fun a => a.id = i

/-- Exactly one of three booleans is set. -/
def exactlyOne (a b c : Bool) : Bool :=
  (a && !b && !c) || (!a && b && !c) || (!a && !b && c)

/-- The DrawOrder/collections synchronisation invariant of the spec: an id is
in `drawOrder` iff it is a member of exactly one of the three collections. -/
def sceneInvariant (s : TabState) : Prop :=
  ∀ i : String, i ∈ s.drawOrder ↔
    exactlyOne (memSteps s i) (memShapes s i) (memTexts s i) = true

/-- Well-formed scene: for every id, its multiplicity in the draw order is
the total multiplicity over the three collections, and that total is at most
one (ids are globally distinct).  This makes the draw order a permutation of
the annotation ids. -/
def sceneWF (steps : List StepIndicator) (shapes : List Shape)
    (texts : List TextAnnot) (ord : List String) : Prop :=
  ∀ i : String,
    ord.count i = (steps.map StepIndicator.id).count i
        + (shapes.map Shape.id).count i + (texts.map TextAnnot.id).count i ∧
    (steps.map StepIndicator.id).count i + (shapes.map Shape.id).count i
        + (texts.map TextAnnot.id).count i ≤ 1

/-- Well-formed history snapshot. -/
def snapWF (p : AnnotationSnapshot) : Prop :=
  sceneWF p.stepIndicators p.shapes p.textAnnots p.drawOrder

/-- Well-formed tab state: the live scene and every stacked snapshot are
well-formed. -/
def stateWF (s : TabState) : Prop :=
  sceneWF s.stepIndicators s.shapes s.textAnnots s.drawOrder ∧
    (∀ p ∈ s.history.undoStack, snapWF p) ∧
    (∀ p ∈ s.history.redoStack, snapWF p)

/-- An id absent from all three collections and from the draw order. -/
def absentFrom (s : TabState) (j : String) : Prop :=
  memSteps s j = false ∧ memShapes s j = false ∧ memTexts s j = false ∧
    j ∉ s.drawOrder

/-- Freshness of an id with respect to a tab's scene: not yet in the draw
order nor in any collection. -/
def freshFor (s : TabState) (i : String) : Prop :=
  i ∉ s.drawOrder ∧ memSteps s i = false ∧ memShapes s i = false ∧ memTexts s i = false

/-- Side condition of the amended C1: the action is one of the claim's listed
actions, and an `ADD_*` action only adds fresh, pairwise-distinct ids. -/
def c1OK (s : TabState) : Action → Prop
  | .ADD_STEP_INDICATOR ind => freshFor s ind.id
  | .ADD_SHAPE sh => freshFor s sh.id
  | .ADD_SHAPES shs => (shs.map Shape.id).Nodup ∧ ∀ sh ∈ shs, freshFor s sh.id
  | .ADD_TEXT_ANNOTATION a => freshFor s a.id
  | .REMOVE_ANNOTATION _ => True
  | .REORDER_ANNOTATION _ _ => True
  | .CROP_IMAGE _ _ => True
  | .BATCH_MOVE _ _ _ _ => True
  | .UNDO => True
  | .REDO => True
  | _ => False

/-- A run of actions each satisfying `c1OK` at the state it fires in. -/
def okRun : TabState → List Action → Prop
  | _, [] => True
  | s, a :: rest => c1OK s a ∧ okRun (reducer s a) rest

/-- Mutations of a continuous gesture: the `UPDATE_*` / `BATCH_MOVE`
dispatches carrying `skipUndo: true`. -/
def isSkipMut : Action → Bool
  | .UPDATE_TEXT_ANNOTATION _ _ skip => skip
  | .UPDATE_SHAPE _ _ skip => skip
  | .UPDATE_STEP_INDICATOR _ _ skip => skip
  | .BATCH_MOVE _ _ _ skip => skip
  | _ => false

/-- The reducer actions that snapshot history at a given state: the `ADD_*`,
`REMOVE_ANNOTATION`, `REORDER_ANNOTATION` and `PUSH_UNDO` cases always do,
`UPDATE_*`/`BATCH_MOVE` only without `skipUndo`, and the image ops only when
the tab exists. -/
def pushesHistory (s : TabState) : Action → Bool
  | .ADD_STEP_INDICATOR _ => true
  | .ADD_SHAPE _ => true
  | .ADD_SHAPES _ => true
  | .ADD_TEXT_ANNOTATION _ => true
  | .REMOVE_ANNOTATION _ => true
  | .REORDER_ANNOTATION _ _ => true
  | .PUSH_UNDO => true
  | .UPDATE_TEXT_ANNOTATION _ _ skip => !skip
  | .UPDATE_SHAPE _ _ skip => !skip
  | .UPDATE_STEP_INDICATOR _ _ skip => !skip
  | .BATCH_MOVE _ _ _ skip => !skip
  | .CROP_IMAGE _ _ => s.tab.isSome
  | .COMMIT_IMAGE_CHANGE _ _ => s.tab.isSome
  | _ => false

/-- REDO followed by UNDO. -/
def redoUndo (s : TabState) : TabState := reducer (reducer s .REDO) .UNDO

open Classical in
/-- One step of the running-closest selection: replace the best candidate
exactly when the new one strictly beats it (or none is held yet). -/
noncomputable def selStep (c : Option Hit) (h : Hit) : Option Hit :=
  if beats h.dist c then some h else c

/-- Strict-improvement selection fold: the common shape of the three
`findAnnotationAt` loops once their threshold filters are factored out. -/
noncomputable def selMin (c : Option Hit) (l : List Hit) : Option Hit :=
  l.foldl selStep c

open Classical in
/-- Candidate a text annotation contributes at a point: a hit (with distance
to the box center) when the point is inside its measured box. -/
noncomputable def textCand (m : String → ℚ) (x y : ℚ) (ta : TextAnnot) : Option Hit :=
  if ta.x ≤ x ∧ x ≤ ta.x + (measureTextAnnot m ta.text ta.fontSize 1).1 ∧
      ta.y ≤ y ∧ y ≤ ta.y + (measureTextAnnot m ta.text ta.fontSize 1).2 then
    some ⟨ta.id, .text,
      hypot (x - (ta.x + (measureTextAnnot m ta.text ta.fontSize 1).1 / 2))
        (y - (ta.y + (measureTextAnnot m ta.text ta.fontSize 1).2 / 2))⟩
  else none

open Classical in
/-- Candidate a step indicator contributes: its center distance when within
`stepSize`. -/
noncomputable def stepCand (stepSize x y : ℚ) (ind : StepIndicator) : Option Hit :=
  if hypot (ind.x - x) (ind.y - y) < (stepSize : ℝ) then
    some ⟨ind.id, .step, hypot (ind.x - x) (ind.y - y)⟩
  else none

open Classical in
/-- Candidate a shape contributes: its `distanceToShape` when below 20. -/
noncomputable def shapeCand (x y : ℚ) (sh : Shape) : Option Hit :=
  if distanceToShape sh x y < (20 : ℝ) then
    some ⟨sh.id, .shape, distanceToShape sh x y⟩
  else none

/-- Text candidates of `findAnnotationAt`, in collection order. -/
noncomputable def textCands (m : String → ℚ) (texts : List TextAnnot) (x y : ℚ) :
    List Hit :=
  texts.filterMap (textCand m x y)

/-- Step-indicator candidates of `findAnnotationAt`, in collection order. -/
noncomputable def stepCands (inds : List StepIndicator) (stepSize x y : ℚ) :
    List Hit :=
  inds.filterMap (stepCand stepSize x y)

/-- Shape candidates of `findAnnotationAt`, in collection order. -/
noncomputable def shapeCands (shapes : List Shape) (x y : ℚ) : List Hit :=
  shapes.filterMap (shapeCand x y)

/-- All within-threshold candidates in the order the three loops consider
them: texts, then step indicators, then shapes, each in collection order. -/
noncomputable def cands (m : String → ℚ) (texts : List TextAnnot)
    (inds : List StepIndicator) (shapes : List Shape) (stepSize x y : ℚ) :
    List Hit :=
  textCands m texts x y ++ stepCands inds stepSize x y ++ shapeCands shapes x y

/-! ## Concrete sample data for witnesses and counterexamples -/

/-- Sample tab. -/
def tab0 : Tab := ⟨"t1", "Screenshot 1", "IMG0", "TH0"⟩

/-- Shape builder with the default settings fields. -/
def mkShape (id : String) (ty : ShapeType) (x1 y1 x2 y2 : ℚ) : Shape :=
  ⟨id, ty, x1, y1, x2, y2, "#ef4444", 3, false, .normal, true, none⟩

/-- Step-indicator builder. -/
def mkStep (id : String) (x y : ℚ) (label : String) : StepIndicator :=
  ⟨id, x, y, label, .decimal, "#ef4444"⟩

/-- Empty snapshot. -/
def blankSnap : AnnotationSnapshot := ⟨[], [], [], 1, [], none, none⟩

/-- Snapshot carrying a base image (as a crop snapshot would). -/
def imgSnap : AnnotationSnapshot := ⟨[], [], [], 1, [], some "IMG1", some "TH1"⟩

/-- State whose undo stack is at the 50-entry cap. -/
def s50 : TabState :=
  { stepIndicators := [], shapes := [], textAnnots := [], drawOrder := []
    history := { undoStack := List.replicate 50 blankSnap, redoStack := [] }
    nextStepNumber := 1, tab := some tab0, selectedId := none, selectedKind := none }

/-- State with a non-empty redo stack whose top carries an image, on a tab
whose current base image is the empty string (JS-falsy). -/
def cexState3 : TabState :=
  { stepIndicators := [], shapes := [], textAnnots := [], drawOrder := []
    history := { undoStack := [], redoStack := [imgSnap] }
    nextStepNumber := 1, tab := some ⟨"t1", "Screenshot 1", "", "TH0"⟩
    selectedId := none, selectedKind := none }

/-- State with a non-empty redo stack whose top is a plain snapshot. -/
def wState3 : TabState :=
  { stepIndicators := [mkStep "a" 1 2 "1."], shapes := [], textAnnots := []
    drawOrder := ["a"]
    history := { undoStack := [], redoStack := [blankSnap] }
    nextStepNumber := 2, tab := some tab0, selectedId := none, selectedKind := none }

/-- State holding two step indicators, both selected, for the delete-key
counterexample. -/
def cexState8 : TabState :=
  { stepIndicators := [mkStep "a" 10 10 "1.", mkStep "b" 20 20 "2."]
    shapes := [], textAnnots := [], drawOrder := ["a", "b"]
    history := { undoStack := [], redoStack := [] }
    nextStepNumber := 3, tab := some tab0, selectedId := none, selectedKind := none }

/-- Degenerate arrow at the origin, id `"a"` (drawn first). -/
def arrA : Shape := mkShape "a" .arrow 0 0 0 0

/-- Degenerate arrow at the origin, id `"b"` (drawn after `arrA`). -/
def arrB : Shape := mkShape "b" .arrow 0 0 0 0

/-- A 100×100 rectangle: its center is 50px from every edge, beyond the 20px
hit threshold. -/
def bigRect : Shape := mkShape "r" .rect 0 0 100 100

/-! ## Basic lemmas -/

theorem hypot_nonneg (a b : ℚ) : 0 ≤ hypot a b := Real.sqrt_nonneg _

theorem hypot_zero : hypot 0 0 = 0 := by
  simp [hypot]

/-! ## C10 — totality of `distanceToShape` -/

/-- C10: `distanceToShape` is total.  For any shape routed to the segment
branch (type neither rect nor blur) whose endpoints coincide, the
`lenSq = 0` guard fires and the result is the Euclidean distance to the
coincident endpoint, so the division by `lenSq` is never reached; and for
every shape and query point the result is non-negative. -/
theorem c10_distanceToShape_total :
    (∀ (s : Shape) (px py : ℚ), s.type ≠ .rect → s.type ≠ .blur →
      s.x1 = s.x2 → s.y1 = s.y2 →
      distanceToShape s px py = hypot (px - s.x1) (py - s.y1)) ∧
    (∀ (s : Shape) (px py : ℚ), 0 ≤ distanceToShape s px py) := by
  constructor
  · intro s px py hr hb hx hy
    have hcond : ¬(s.type = .rect ∨ s.type = .blur) := by
      rintro (h | h)
      · exact hr h
      · exact hb h
    simp only [distanceToShape, if_neg hcond]
    rw [← hx, ← hy]
    simp
  · intro s px py
    simp only [distanceToShape]
    split_ifs with h1 h2 h3
    · obtain ⟨ha, hb, hc, hd⟩ := h2
      have h0 : (0 : ℚ) ≤ min (px - min s.x1 s.x2)
          (min (min s.x1 s.x2 + |s.x2 - s.x1| - px)
            (min (py - min s.y1 s.y2) (min s.y1 s.y2 + |s.y2 - s.y1| - py))) := by
        simp only [le_min_iff]
        exact ⟨by linarith, by linarith, by linarith, by linarith⟩
      exact_mod_cast h0
    · exact hypot_nonneg _ _
    · exact hypot_nonneg _ _
    · exact hypot_nonneg _ _

/-- Witness for C10: a degenerate arrow (coincident endpoints at the origin)
queried at (3, 4) measures `hypot 3 4 = 5`, non-negative, with no division
performed. -/
theorem c10_witness :
    distanceToShape arrA 3 4 = hypot 3 4 ∧ (0 : ℝ) ≤ distanceToShape arrA 3 4 ∧
      hypot 3 4 = 5 := by
  refine ⟨?_, c10_distanceToShape_total.2 arrA 3 4, ?_⟩
  · have h := c10_distanceToShape_total.1 arrA 3 4 (by decide) (by decide) rfl rfl
    simpa [arrA, mkShape] using h
  · have h25 : ((3 : ℚ) : ℝ) ^ 2 + ((4 : ℚ) : ℝ) ^ 2 = 5 ^ 2 := by norm_num
    rw [hypot, h25, Real.sqrt_sq (by norm_num)]

/-! ## C6 — sub-threshold draw gestures are silent no-ops -/

/-- C6: on pointer-up of a rect/arrow/blur drawing gesture the shape is
committed — appended to the scene and the draw order, with exactly one undo
entry pushed and the redo stack cleared — exactly when one of the drawn
dimensions exceeds 5px; otherwise the store is left exactly unchanged (no
shape, no draw-order change, no history entry, no error). -/
theorem c6_draw_commit_threshold (s : TabState) (tool : ShapeType)
    (ds : DrawingShape) (newId color : String) (sw : ℚ) (filled : Bool)
    (rm : RectMode) (ac : Bool) (bs : ℚ) :
    (¬(5 < |ds.x2 - ds.x1| ∨ 5 < |ds.y2 - ds.y1|) →
      handleMouseUpDraw s tool ds newId color sw filled rm ac bs = s) ∧
    ((5 < |ds.x2 - ds.x1| ∨ 5 < |ds.y2 - ds.y1|) →
      ∃ sh : Shape, sh.id = newId ∧ sh.type = tool ∧
        sh.x1 = ds.x1 ∧ sh.y1 = ds.y1 ∧ sh.x2 = ds.x2 ∧ sh.y2 = ds.y2 ∧
        handleMouseUpDraw s tool ds newId color sw filled rm ac bs =
          { s with
            history := { undoStack :=
                           sliceLast (MAX_HISTORY - 1) s.history.undoStack ++ [snapshot s]
                         redoStack := [] }
            shapes := s.shapes ++ [sh]
            drawOrder := s.drawOrder ++ [newId] }) := by
  constructor
  · intro h
    unfold handleMouseUpDraw drawnShapeCommit
    rw [if_neg h]
  · intro h
    refine ⟨{ id := newId, type := tool, x1 := ds.x1, y1 := ds.y1, x2 := ds.x2
              y2 := ds.y2, color := color, strokeWidth := sw, filled := filled
              rectMode := rm, arrowChevrons := ac
              blurStrength := if tool = .blur then some bs else none },
            rfl, rfl, rfl, rfl, rfl, rfl, ?_⟩
    unfold handleMouseUpDraw drawnShapeCommit
    rw [if_pos h]
    rfl

/-- Witness for C6: a 3×3 drag commits nothing and leaves the store
unchanged; a 50×10 drag commits one rect with one history push. -/
theorem c6_witness :
    handleMouseUpDraw (initTabState tab0) .rect ⟨10, 10, 13, 13⟩ "n1" "#ef4444"
        3 false .normal true 8 = initTabState tab0 ∧
    (handleMouseUpDraw (initTabState tab0) .rect ⟨10, 10, 60, 20⟩ "n2" "#ef4444"
        3 false .normal true 8).history.undoStack.length = 1 := by
  constructor
  · exact (c6_draw_commit_threshold (initTabState tab0) .rect ⟨10, 10, 13, 13⟩
      "n1" "#ef4444" 3 false .normal true 8).1 (by norm_num)
  · obtain ⟨sh, _, _, _, _, _, _, heq⟩ :=
      (c6_draw_commit_threshold (initTabState tab0) .rect ⟨10, 10, 60, 20⟩
        "n2" "#ef4444" 3 false .normal true 8).2 (by norm_num)
    rw [heq]
    rfl

/-! ## C7 — step labels and the step counter -/

/-- C7: placing a step indicator labels it with the current counter
(`"<n>."` in decimal style) and increments the counter by one; removing a
step indicator decrements the counter floored at 1; removing a non-step
annotation leaves the counter unchanged. -/
theorem c7_step_counter :
    (∀ (s : TabState) (newId color : String) (x y : ℚ), s.nextStepNumber ≠ 0 →
      (placeStep s newId .decimal color x y).2 = toString s.nextStepNumber ++ "." ∧
      (placeStep s newId .decimal color x y).1.nextStepNumber = s.nextStepNumber + 1) ∧
    (∀ (s : TabState) (aid : String),
      s.stepIndicators.any (fun i => i.id = aid) = true → s.nextStepNumber ≠ 0 →
      (reducer s (.REMOVE_ANNOTATION aid)).nextStepNumber
        = max 1 (s.nextStepNumber - 1)) ∧
    (∀ (s : TabState) (aid : String),
      s.stepIndicators.any (fun i => i.id = aid) = false → s.nextStepNumber ≠ 0 →
      (reducer s (.REMOVE_ANNOTATION aid)).nextStepNumber = s.nextStepNumber) := by
  refine ⟨?_, ?_, ?_⟩
  · intro s newId color x y hn
    constructor
    · simp [placeStep, formatStepLabel, orOne, hn]
    · simp [placeStep, reducer, orOne, hn]
  · intro s aid hmem hn
    simp [reducer, orOne, hmem, hn]
  · intro s aid hmem hn
    simp [reducer, orOne, hmem, hn]

/-- Witness for C7: on a fresh tab the first placed decimal step is labelled
"1.", the second "2.", and after deleting the first step the next placement
is labelled "2." again. -/
theorem c7_step_counter_witness :
    (placeStep (initTabState tab0) "a" .decimal "#ef4444" 100 100).2 = "1." ∧
    (placeStep (placeStep (initTabState tab0) "a" .decimal "#ef4444" 100 100).1
        "b" .decimal "#ef4444" 200 100).2 = "2." ∧
    (placeStep
        (reducer (placeStep (placeStep (initTabState tab0) "a" .decimal "#ef4444"
            100 100).1 "b" .decimal "#ef4444" 200 100).1
          (.REMOVE_ANNOTATION "a"))
        "c" .decimal "#ef4444" 300 100).2 = "2." := by
  have h1 := (c7_step_counter.1 (initTabState tab0) "a" "#ef4444" 100 100
    (by decide)).1
  exact ⟨by simpa using h1, by decide, by decide⟩

/-! ## C2 — one history push per continuous gesture -/

theorem skipMut_history (a : Action) (s : TabState) (h : isSkipMut a = true) :
    (reducer s a).history = s.history := by
  cases a <;> simp_all [isSkipMut, reducer]

theorem applyActions_skip_history (moves : List Action) :
    ∀ s : TabState, (∀ a ∈ moves, isSkipMut a = true) →
      (applyActions s moves).history = s.history := by
  induction moves with
  | nil => intro s _; rfl
  | cons a rest ih =>
    intro s hm
    have h1 : isSkipMut a = true := hm a (List.mem_cons_self a rest)
    have h2 : ∀ b ∈ rest, isSkipMut b = true := fun b hb =>
      hm b (List.mem_cons_of_mem a hb)
    calc (applyActions s (a :: rest)).history
        = (applyActions (reducer s a) rest).history := rfl
      _ = (reducer s a).history := ih (reducer s a) h2
      _ = s.history := skipMut_history a s h1

theorem sliceLast_push_length (u : List α) (x : α) :
    (sliceLast (MAX_HISTORY - 1) u ++ [x]).length = min (u.length + 1) 50 := by
  simp [sliceLast, MAX_HISTORY]
  omega

/-- C2 (amended): a gesture — one `PUSH_UNDO` followed by any number of
`skipUndo` mutations — leaves the tab's history exactly as the single push
left it: the undo stack is the capped old stack plus one snapshot of the
pre-gesture scene, the redo stack is empty; the undo stack length grows by
exactly one whenever the stack was below the 50-entry cap (at the cap the
length stays 50). -/
theorem c2_gesture_single_push (s : TabState) (moves : List Action)
    (hm : ∀ a ∈ moves, isSkipMut a = true) :
    (applyActions s (Action.PUSH_UNDO :: moves)).history.undoStack
        = sliceLast (MAX_HISTORY - 1) s.history.undoStack ++ [snapshot s] ∧
    (applyActions s (Action.PUSH_UNDO :: moves)).history.redoStack = [] ∧
    (applyActions s (Action.PUSH_UNDO :: moves)).history.undoStack.length
        = min (s.history.undoStack.length + 1) 50 ∧
    (s.history.undoStack.length < 50 →
      (applyActions s (Action.PUSH_UNDO :: moves)).history.undoStack.length
        = s.history.undoStack.length + 1) := by
  have key : (applyActions s (Action.PUSH_UNDO :: moves)).history = pushUndoHist s := by
    have h0 : applyActions s (Action.PUSH_UNDO :: moves)
        = applyActions (reducer s .PUSH_UNDO) moves := rfl
    rw [h0, applyActions_skip_history moves _ hm]
    rfl
  have hlen := sliceLast_push_length s.history.undoStack (snapshot s)
  refine ⟨by rw [key]; rfl, by rw [key]; rfl, ?_, ?_⟩
  · rw [key]
    exact hlen
  · intro hlt
    rw [key]
    show (sliceLast (MAX_HISTORY - 1) s.history.undoStack ++ [snapshot s]).length = _
    rw [hlen]
    omega

/-- Witness for C2: a push followed by two `skipUndo` mutations on a fresh
tab grows the undo stack from 0 to exactly 1. -/
theorem c2_gesture_witness :
    (applyActions (initTabState tab0)
        [Action.PUSH_UNDO, Action.UPDATE_SHAPE "x" {} true,
         Action.BATCH_MOVE [] [] [] true]).history.undoStack.length = 1 := by
  have h := (c2_gesture_single_push (initTabState tab0)
      [Action.UPDATE_SHAPE "x" {} true, Action.BATCH_MOVE [] [] [] true]
      (by decide)).2.2.2 (by decide)
  simpa using h

/-- Counterexample to C2 as stated: with the undo stack at the 50-entry cap,
a gesture's push does not grow the stack (50 entries before, 50 after, the
oldest dropped), so "grows by exactly one regardless" fails. -/
theorem c2_cap_cex :
    ¬((applyActions s50 [Action.PUSH_UNDO]).history.undoStack.length
        = s50.history.undoStack.length + 1) := by
  have h1 : (applyActions s50 [Action.PUSH_UNDO]).history.undoStack.length = 50 := by
    show (pushUndoHist s50).undoStack.length = 50
    show (sliceLast (MAX_HISTORY - 1) s50.history.undoStack ++ [snapshot s50]).length = 50
    rw [sliceLast_push_length]
    simp [s50]
  have h2 : s50.history.undoStack.length = 50 := by simp [s50]
  omega

/-! ## C9 — pushes clear redo; the undo stack never exceeds the cap -/

theorem pushUndoHist_redo (s : TabState) : (pushUndoHist s).redoStack = [] := rfl

/-- Lengths of the history stacks across any single reducer action: either
both unchanged, or a capped push with empty redo, or an undo/redo transfer
of one entry between the stacks. -/
theorem reducer_hist_shape (a : Action) (s : TabState) :
    (reducer s a).history = s.history ∨
    ((reducer s a).history.undoStack.length = min (s.history.undoStack.length + 1) 50 ∧
      (reducer s a).history.redoStack = []) ∨
    (1 ≤ s.history.undoStack.length ∧
      (reducer s a).history.undoStack.length = s.history.undoStack.length - 1 ∧
      (reducer s a).history.redoStack.length = s.history.redoStack.length + 1) ∨
    (1 ≤ s.history.redoStack.length ∧
      (reducer s a).history.undoStack.length = s.history.undoStack.length + 1 ∧
      (reducer s a).history.redoStack.length = s.history.redoStack.length - 1) := by
  have hpush : ∀ x : AnnotationSnapshot,
      (sliceLast (MAX_HISTORY - 1) s.history.undoStack ++ [x]).length
        = min (s.history.undoStack.length + 1) 50 := fun x =>
    sliceLast_push_length s.history.undoStack x
  cases a with
  | ADD_STEP_INDICATOR ind => exact Or.inr (Or.inl ⟨hpush _, rfl⟩)
  | ADD_SHAPE sh => exact Or.inr (Or.inl ⟨hpush _, rfl⟩)
  | ADD_SHAPES shs => exact Or.inr (Or.inl ⟨hpush _, rfl⟩)
  | ADD_TEXT_ANNOTATION a => exact Or.inr (Or.inl ⟨hpush _, rfl⟩)
  | UPDATE_TEXT_ANNOTATION id ch skip =>
    cases skip
    · exact Or.inr (Or.inl ⟨hpush _, rfl⟩)
    · exact Or.inl rfl
  | UPDATE_SHAPE id ch skip =>
    cases skip
    · exact Or.inr (Or.inl ⟨hpush _, rfl⟩)
    · exact Or.inl rfl
  | UPDATE_STEP_INDICATOR id ch skip =>
    cases skip
    · exact Or.inr (Or.inl ⟨hpush _, rfl⟩)
    · exact Or.inl rfl
  | PUSH_UNDO => exact Or.inr (Or.inl ⟨hpush _, rfl⟩)
  | REMOVE_ANNOTATION aid => exact Or.inr (Or.inl ⟨hpush _, rfl⟩)
  | UNDO =>
    rcases List.eq_nil_or_concat s.history.undoStack with hu | ⟨L, b, hu⟩
    · left
      show (match s.history.undoStack.getLast? with
            | none => s
            | some prev => _).history = s.history
      rw [hu]
      rfl
    · right; right; left
      rw [List.concat_eq_append] at hu
      have hg : s.history.undoStack.getLast? = some b := by
        rw [hu]; exact List.getLast?_concat _
      refine ⟨by rw [hu]; simp, ?_, ?_⟩
      · show (match s.history.undoStack.getLast? with
              | none => s
              | some prev =>
                { s with
                  stepIndicators := prev.stepIndicators
                  shapes := prev.shapes
                  textAnnots := prev.textAnnots
                  nextStepNumber := prev.nextStepNumber
                  drawOrder := prev.drawOrder
                  history :=
                    { undoStack := s.history.undoStack.dropLast
                      redoStack := s.history.redoStack ++ [histCWI s prev] }
                  tab := restoreTab s.tab prev }).history.undoStack.length = _
        rw [hg]
        simp [hu]
      · show (match s.history.undoStack.getLast? with
              | none => s
              | some prev =>
                { s with
                  stepIndicators := prev.stepIndicators
                  shapes := prev.shapes
                  textAnnots := prev.textAnnots
                  nextStepNumber := prev.nextStepNumber
                  drawOrder := prev.drawOrder
                  history :=
                    { undoStack := s.history.undoStack.dropLast
                      redoStack := s.history.redoStack ++ [histCWI s prev] }
                  tab := restoreTab s.tab prev }).history.redoStack.length = _
        rw [hg]
        simp
  | REDO =>
    rcases List.eq_nil_or_concat s.history.redoStack with hr | ⟨L, b, hr⟩
    · left
      show (match s.history.redoStack.getLast? with
            | none => s
            | some nxt => _).history = s.history
      rw [hr]
      rfl
    · right; right; right
      rw [List.concat_eq_append] at hr
      have hg : s.history.redoStack.getLast? = some b := by
        rw [hr]; exact List.getLast?_concat _
      refine ⟨by rw [hr]; simp, ?_, ?_⟩
      · show (match s.history.redoStack.getLast? with
              | none => s
              | some nxt =>
                { s with
                  stepIndicators := nxt.stepIndicators
                  shapes := nxt.shapes
                  textAnnots := nxt.textAnnots
                  nextStepNumber := nxt.nextStepNumber
                  drawOrder := nxt.drawOrder
                  history :=
                    { undoStack := s.history.undoStack ++ [histCWI s nxt]
                      redoStack := s.history.redoStack.dropLast }
                  tab := restoreTab s.tab nxt }).history.undoStack.length = _
        rw [hg]
        simp
      · show (match s.history.redoStack.getLast? with
              | none => s
              | some nxt =>
                { s with
                  stepIndicators := nxt.stepIndicators
                  shapes := nxt.shapes
                  textAnnots := nxt.textAnnots
                  nextStepNumber := nxt.nextStepNumber
                  drawOrder := nxt.drawOrder
                  history :=
                    { undoStack := s.history.undoStack ++ [histCWI s nxt]
                      redoStack := s.history.redoStack.dropLast }
                  tab := restoreTab s.tab nxt }).history.redoStack.length = _
        rw [hg]
        simp [hr]
  | CROP_IMAGE img thumb =>
    cases htab : s.tab with
    | none =>
      left
      show (match s.tab with
            | none => s
            | some tab => _).history = s.history
      rw [htab]
    | some tab =>
      right; left
      constructor
      · show (match s.tab with
              | none => s
              | some tab => _).history.undoStack.length = _
        rw [htab]
        exact hpush _
      · show (match s.tab with
              | none => s
              | some tab => _).history.redoStack = []
        rw [htab]
  | COMMIT_IMAGE_CHANGE img thumb =>
    cases htab : s.tab with
    | none =>
      left
      show (match s.tab with
            | none => s
            | some tab => _).history = s.history
      rw [htab]
    | some tab =>
      right; left
      constructor
      · show (match s.tab with
              | none => s
              | some tab => _).history.undoStack.length = _
        rw [htab]
        exact hpush _
      · show (match s.tab with
              | none => s
              | some tab => _).history.redoStack = []
        rw [htab]
  | BATCH_MOVE st sh tx skip =>
    cases skip
    · exact Or.inr (Or.inl ⟨hpush _, rfl⟩)
    · exact Or.inl rfl
  | REORDER_ANNOTATION aid dir =>
    by_cases hmem : aid ∈ s.drawOrder
    · refine Or.inr (Or.inl ?_)
      show ((if aid ∈ s.drawOrder then _ else _ : TabState)).history.undoStack.length
          = _ ∧ ((if aid ∈ s.drawOrder then _ else _ : TabState)).history.redoStack = []
      rw [if_pos hmem]
      exact ⟨hpush _, rfl⟩
    · refine Or.inr (Or.inl ?_)
      show ((if aid ∈ s.drawOrder then _ else _ : TabState)).history.undoStack.length
          = _ ∧ ((if aid ∈ s.drawOrder then _ else _ : TabState)).history.redoStack = []
      rw [if_neg hmem]
      exact ⟨hpush _, rfl⟩
  | SET_SELECTION id kind => exact Or.inl rfl

theorem histSum_step (a : Action) (s : TabState)
    (h : s.history.undoStack.length + s.history.redoStack.length ≤ 50) :
    (reducer s a).history.undoStack.length
      + (reducer s a).history.redoStack.length ≤ 50 := by
  rcases reducer_hist_shape a s with heq | ⟨h1, h2⟩ | ⟨h0, h1, h2⟩ | ⟨h0, h1, h2⟩
  · rw [heq]
    exact h
  · rw [h1, h2]
    simp only [List.length_nil]
    omega
  · omega
  · omega

theorem histSum_run (acts : List Action) :
    ∀ s : TabState, s.history.undoStack.length + s.history.redoStack.length ≤ 50 →
      (applyActions s acts).history.undoStack.length
        + (applyActions s acts).history.redoStack.length ≤ 50 := by
  induction acts with
  | nil => intro s h; exact h
  | cons a rest ih =>
    intro s h
    exact ih (reducer s a) (histSum_step a s h)

/-- C9: every snapshotting action leaves the tab's redo stack empty; from a
fresh tab, no action sequence ever takes the undo stack past the 50-entry
cap; and a push onto a full stack keeps exactly the newest 49 old entries
plus the new snapshot (the oldest entry is discarded). -/
theorem c9_history_invariants :
    (∀ (s : TabState) (a : Action), pushesHistory s a = true →
      (reducer s a).history.redoStack = []) ∧
    (∀ (tab : Tab) (acts : List Action),
      (applyActions (initTabState tab) acts).history.undoStack.length ≤ 50) ∧
    (∀ s : TabState, s.history.undoStack.length = 50 →
      (reducer s Action.PUSH_UNDO).history.undoStack
        = s.history.undoStack.tail ++ [snapshot s]) := by
  refine ⟨?_, ?_, ?_⟩
  · intro s a hp
    cases a with
    | UPDATE_TEXT_ANNOTATION id ch skip =>
      cases skip
      · rfl
      · simp [pushesHistory] at hp
    | UPDATE_SHAPE id ch skip =>
      cases skip
      · rfl
      · simp [pushesHistory] at hp
    | UPDATE_STEP_INDICATOR id ch skip =>
      cases skip
      · rfl
      · simp [pushesHistory] at hp
    | BATCH_MOVE st sh tx skip =>
      cases skip
      · rfl
      · simp [pushesHistory] at hp
    | CROP_IMAGE img thumb =>
      cases htab : s.tab with
      | none => simp [pushesHistory, htab] at hp
      | some tab =>
        show (match s.tab with
              | none => s
              | some tab => _).history.redoStack = []
        rw [htab]
    | COMMIT_IMAGE_CHANGE img thumb =>
      cases htab : s.tab with
      | none => simp [pushesHistory, htab] at hp
      | some tab =>
        show (match s.tab with
              | none => s
              | some tab => _).history.redoStack = []
        rw [htab]
    | REORDER_ANNOTATION aid dir =>
      by_cases hmem : aid ∈ s.drawOrder
      · show ((if aid ∈ s.drawOrder then _ else _ : TabState)).history.redoStack = []
        rw [if_pos hmem]
        rfl
      · show ((if aid ∈ s.drawOrder then _ else _ : TabState)).history.redoStack = []
        rw [if_neg hmem]
        rfl
    | UNDO => simp [pushesHistory] at hp
    | REDO => simp [pushesHistory] at hp
    | SET_SELECTION id kind => simp [pushesHistory] at hp
    | ADD_STEP_INDICATOR ind => rfl
    | ADD_SHAPE sh => rfl
    | ADD_SHAPES shs => rfl
    | ADD_TEXT_ANNOTATION a => rfl
    | PUSH_UNDO => rfl
    | REMOVE_ANNOTATION aid => rfl
  · intro tab acts
    have h := histSum_run acts (initTabState tab) (by simp [initTabState])
    omega
  · intro s h
    show sliceLast (MAX_HISTORY - 1) s.history.undoStack ++ [snapshot s] = _
    unfold sliceLast MAX_HISTORY
    rw [h]
    norm_num

/-- Witness for C9: on a fresh tab, an `ADD_SHAPE` after an `UNDO` leaves the
redo stack empty, and a 60-action run of pushes stays at the 50-entry cap. -/
theorem c9_history_witness :
    (reducer (initTabState tab0) (.ADD_SHAPE arrA)).history.redoStack = [] ∧
    (applyActions (initTabState tab0)
        (List.replicate 60 Action.PUSH_UNDO)).history.undoStack.length ≤ 50 := by
  exact ⟨c9_history_invariants.1 (initTabState tab0) (.ADD_SHAPE arrA) rfl,
    c9_history_invariants.2.1 tab0 (List.replicate 60 Action.PUSH_UNDO)⟩

/-! ## C8 — Delete/Backspace with a multi-selection -/

theorem remove_clears (s : TabState) (aid j : String)
    (h : absentFrom s j ∨ j = aid) :
    absentFrom (reducer s (.REMOVE_ANNOTATION aid)) j := by
  refine ⟨?_, ?_, ?_, ?_⟩
  · show (s.stepIndicators.filter fun i => i.id ≠ aid).any (fun a => a.id = j) = false
    rcases h with ⟨h1, _, _, _⟩ | rfl
    · simp only [memSteps, List.any_eq_false] at h1 ⊢
      intro x hx
      exact h1 x (List.mem_of_mem_filter hx)
    · simp only [List.any_eq_false, List.mem_filter]
      rintro x ⟨_, hne⟩
      simpa using hne
  · show (s.shapes.filter fun i => i.id ≠ aid).any (fun a => a.id = j) = false
    rcases h with ⟨_, h1, _, _⟩ | rfl
    · simp only [memShapes, List.any_eq_false] at h1 ⊢
      intro x hx
      exact h1 x (List.mem_of_mem_filter hx)
    · simp only [List.any_eq_false, List.mem_filter]
      rintro x ⟨_, hne⟩
      simpa using hne
  · show (s.textAnnots.filter fun i => i.id ≠ aid).any (fun a => a.id = j) = false
    rcases h with ⟨_, _, h1, _⟩ | rfl
    · simp only [memTexts, List.any_eq_false] at h1 ⊢
      intro x hx
      exact h1 x (List.mem_of_mem_filter hx)
    · simp only [List.any_eq_false, List.mem_filter]
      rintro x ⟨_, hne⟩
      simpa using hne
  · show j ∉ s.drawOrder.filter fun i => i ≠ aid
    rcases h with ⟨_, _, _, h1⟩ | rfl
    · intro hmem
      exact h1 (List.mem_of_mem_filter hmem)
    · intro hmem
      have := List.of_mem_filter hmem
      simp at this

theorem deleteSelected_absent (ids : List String) :
    ∀ (s : TabState) (j : String), absentFrom s j ∨ j ∈ ids →
      absentFrom (deleteSelected s ids) j := by
  induction ids with
  | nil =>
    intro s j h
    rcases h with h | h
    · exact h
    · simp at h
  | cons a rest ih =>
    intro s j h
    show absentFrom (deleteSelected (reducer s (.REMOVE_ANNOTATION a)) rest) j
    rcases h with h | h
    · exact ih _ j (Or.inl (remove_clears s a j (Or.inl h)))
    · rcases List.mem_cons.mp h with rfl | hrest
      · exact ih _ j (Or.inl (remove_clears s j j (Or.inr rfl)))
      · exact ih _ j (Or.inr hrest)

theorem deleteSelected_len (ids : List String) :
    ∀ s : TabState, s.history.undoStack.length + ids.length ≤ 50 →
      (deleteSelected s ids).history.undoStack.length
        = s.history.undoStack.length + ids.length := by
  induction ids with
  | nil => intro s _; rfl
  | cons a rest ih =>
    intro s h
    have hstep : (reducer s (.REMOVE_ANNOTATION a)).history.undoStack.length
        = s.history.undoStack.length + 1 := by
      show (sliceLast (MAX_HISTORY - 1) s.history.undoStack ++ [snapshot s]).length = _
      rw [sliceLast_push_length]
      simp only [List.length_cons] at h
      omega
    have hrec := ih (reducer s (.REMOVE_ANNOTATION a)) (by
      rw [hstep]
      simp only [List.length_cons] at h
      omega)
    show (deleteSelected (reducer s (.REMOVE_ANNOTATION a)) rest).history.undoStack.length = _
    rw [hrec, hstep]
    simp only [List.length_cons]
    omega

/-- C8 (amended): Delete/Backspace with k ≥ 1 selected annotations removes
all k of them from the collections and the draw order and clears the
selection, but dispatches one `REMOVE_ANNOTATION` per selected id, each of
which pushes its own undo entry: the undo stack grows by k (one entry per
annotation; shown below the cap), not by one. -/
theorem c8_delete_selection (s : TabState) (ids : List String) (hne : ids ≠ [])
    (hcap : s.history.undoStack.length + ids.length ≤ 50) :
    (handleDeleteKey s ids).1.history.undoStack.length
        = s.history.undoStack.length + ids.length ∧
    (∀ i ∈ ids, absentFrom (handleDeleteKey s ids).1 i) ∧
    (handleDeleteKey s ids).1.selectedId = none ∧
    (handleDeleteKey s ids).1.selectedKind = none ∧
    (handleDeleteKey s ids).2 = [] := by
  unfold handleDeleteKey
  rw [if_pos hne]
  refine ⟨?_, ?_, rfl, rfl, rfl⟩
  · show (deleteSelected s ids).history.undoStack.length = _
    exact deleteSelected_len ids s hcap
  · intro i hi
    exact deleteSelected_absent ids s i (Or.inr hi)

/-- Witness for C8 (amended): deleting a 2-selection removes both
annotations, clears the selection, and grows the undo stack by 2. -/
theorem c8_delete_selection_witness :
    (handleDeleteKey cexState8 ["a", "b"]).1.history.undoStack.length
        = cexState8.history.undoStack.length + 2 ∧
    absentFrom (handleDeleteKey cexState8 ["a", "b"]).1 "a" ∧
    (handleDeleteKey cexState8 ["a", "b"]).1.selectedId = none := by
  have h := c8_delete_selection cexState8 ["a", "b"] (by decide) (by decide)
  exact ⟨h.1, h.2.1 "a" (by decide), h.2.2.1⟩

/-- Counterexample to C8 as stated: deleting a 2-selection pushes two undo
entries (the handler loops `REMOVE_ANNOTATION` per id and each dispatch
snapshots), not exactly one. -/
theorem c8_two_pushes_cex :
    (handleDeleteKey cexState8 ["a", "b"]).1.history.undoStack.length = 2 ∧
    cexState8.history.undoStack.length = 0 := by
  decide

/-! ## C3 — Undo(Redo(s)) restores the scene -/

theorem histCWI_fields (s : TabState) (p : AnnotationSnapshot) :
    (histCWI s p).stepIndicators = s.stepIndicators ∧
    (histCWI s p).shapes = s.shapes ∧
    (histCWI s p).textAnnots = s.textAnnots ∧
    (histCWI s p).nextStepNumber = orOne s.nextStepNumber ∧
    (histCWI s p).drawOrder = s.drawOrder := by
  by_cases hb : strTruthy p.imageDataURL = true <;>
    cases htab : s.tab <;>
      simp [histCWI, htab, hb, snapshot]

/-- C3 (amended): from any tab state with a non-empty redo stack and a
nonzero step counter, REDO followed by UNDO restores the scene —
step indicators, shapes, text annotations, `nextStepNumber`, draw order —
exactly; and the tab's base image is restored provided the current base
image string is JS-truthy (non-empty). -/
theorem c3_redo_undo (s : TabState) (hne : s.history.redoStack ≠ [])
    (hn : s.nextStepNumber ≠ 0) :
    (redoUndo s).stepIndicators = s.stepIndicators ∧
    (redoUndo s).shapes = s.shapes ∧
    (redoUndo s).textAnnots = s.textAnnots ∧
    (redoUndo s).nextStepNumber = s.nextStepNumber ∧
    (redoUndo s).drawOrder = s.drawOrder ∧
    (∀ tab : Tab, s.tab = some tab → tab.imageDataURL ≠ "" →
      ∃ t2, (redoUndo s).tab = some t2 ∧ t2.imageDataURL = tab.imageDataURL) := by
  rcases List.eq_nil_or_concat s.history.redoStack with hr | ⟨L, b, hr⟩
  · exact absurd hr hne
  · rw [List.concat_eq_append] at hr
    have hget : s.history.redoStack.getLast? = some b := by
      rw [hr]
      exact List.getLast?_concat _
    have hred : reducer s .REDO = { s with
        stepIndicators := b.stepIndicators
        shapes := b.shapes
        textAnnots := b.textAnnots
        nextStepNumber := b.nextStepNumber
        drawOrder := b.drawOrder
        history := { undoStack := s.history.undoStack ++ [histCWI s b]
                     redoStack := s.history.redoStack.dropLast }
        tab := restoreTab s.tab b } := by
      show (match s.history.redoStack.getLast? with
            | none => s
            | some nxt =>
              { s with
                stepIndicators := nxt.stepIndicators
                shapes := nxt.shapes
                textAnnots := nxt.textAnnots
                nextStepNumber := nxt.nextStepNumber
                drawOrder := nxt.drawOrder
                history := { undoStack := s.history.undoStack ++ [histCWI s nxt]
                             redoStack := s.history.redoStack.dropLast }
                tab := restoreTab s.tab nxt }) = _
      rw [hget]
    have hget2 : (reducer s .REDO).history.undoStack.getLast? = some (histCWI s b) := by
      rw [hred]
      exact List.getLast?_concat _
    have hund : redoUndo s = { reducer s .REDO with
        stepIndicators := (histCWI s b).stepIndicators
        shapes := (histCWI s b).shapes
        textAnnots := (histCWI s b).textAnnots
        nextStepNumber := (histCWI s b).nextStepNumber
        drawOrder := (histCWI s b).drawOrder
        history := { undoStack := (reducer s .REDO).history.undoStack.dropLast
                     redoStack := (reducer s .REDO).history.redoStack
                                    ++ [histCWI (reducer s .REDO) (histCWI s b)] }
        tab := restoreTab (reducer s .REDO).tab (histCWI s b) } := by
      show (match (reducer s .REDO).history.undoStack.getLast? with
            | none => reducer s .REDO
            | some prev =>
              { reducer s .REDO with
                stepIndicators := prev.stepIndicators
                shapes := prev.shapes
                textAnnots := prev.textAnnots
                nextStepNumber := prev.nextStepNumber
                drawOrder := prev.drawOrder
                history := { undoStack := (reducer s .REDO).history.undoStack.dropLast
                             redoStack := (reducer s .REDO).history.redoStack
                                            ++ [histCWI (reducer s .REDO) prev] }
                tab := restoreTab (reducer s .REDO).tab prev }) = _
      rw [hget2]
    obtain ⟨hf1, hf2, hf3, hf4, hf5⟩ := histCWI_fields s b
    refine ⟨?_, ?_, ?_, ?_, ?_, ?_⟩
    · rw [hund]
      exact hf1
    · rw [hund]
      exact hf2
    · rw [hund]
      exact hf3
    · rw [hund]
      show (histCWI s b).nextStepNumber = s.nextStepNumber
      rw [hf4]
      simp [orOne, hn]
    · rw [hund]
      exact hf5
    · intro tab htab himg
      rw [hund]
      show ∃ t2, restoreTab (reducer s .REDO).tab (histCWI s b) = some t2 ∧
        t2.imageDataURL = tab.imageDataURL
      have hs2tab : (reducer s .REDO).tab = restoreTab s.tab b := by rw [hred]
      rw [hs2tab, htab]
      cases hb : strTruthy b.imageDataURL with
      | false =>
        have h1 : restoreTab (some tab) b = some tab := by
          simp [restoreTab, hb]
        have h2 : histCWI s b = snapshot s := by
          simp [histCWI, htab, hb]
        rw [h1, h2]
        have h3 : restoreTab (some tab) (snapshot s) = some tab := by
          simp [restoreTab, snapshot, strTruthy]
        rw [h3]
        exact ⟨tab, rfl, rfl⟩
      | true =>
        have h1 : restoreTab (some tab) b =
            some { tab with imageDataURL := b.imageDataURL.getD tab.imageDataURL
                            thumbnail := jsOr b.thumbnail tab.thumbnail } := by
          simp [restoreTab, hb]
        have h2 : histCWI s b =
            { snapshot s with imageDataURL := some tab.imageDataURL
                              thumbnail := some tab.thumbnail } := by
          simp [histCWI, htab, hb]
        rw [h1, h2]
        have h3 : strTruthy (some tab.imageDataURL) = true := by
          simp [strTruthy, himg]
        simp only [restoreTab, h3, if_true]
        exact ⟨_, rfl, rfl⟩

/-- Witness for C3: a state with one redo entry and a truthy base image has
its scene and base image restored by REDO-then-UNDO. -/
theorem c3_redo_undo_witness :
    (redoUndo wState3).stepIndicators = wState3.stepIndicators ∧
    (redoUndo wState3).drawOrder = wState3.drawOrder ∧
    (∃ t2, (redoUndo wState3).tab = some t2 ∧ t2.imageDataURL = tab0.imageDataURL) := by
  have h := c3_redo_undo wState3 (by decide) (by decide)
  exact ⟨h.1, h.2.2.2.2.1, h.2.2.2.2.2 tab0 rfl (by decide)⟩

/-- Counterexample to C3 as stated: with an empty-string (JS-falsy) base
image and a redo snapshot carrying an image, REDO-then-UNDO leaves the
redone image in place — the base image is not restored. -/
theorem c3_empty_image_cex :
    (redoUndo cexState3).tab.map Tab.imageDataURL = some "IMG1" ∧
    cexState3.tab.map Tab.imageDataURL = some "" := by
  decide

/-! ## C4 — closest-wins hit-testing and tie-breaking -/

theorem selStep_none (h : Hit) : selStep none h = some h := by
  unfold selStep
  rw [if_pos (show beats h.dist none from trivial)]

theorem selStep_lt (c h : Hit) (hb : h.dist < c.dist) : selStep (some c) h = some h := by
  unfold selStep
  rw [if_pos (show beats h.dist (some c) from hb)]

theorem selStep_ge (c h : Hit) (hb : ¬h.dist < c.dist) : selStep (some c) h = some c := by
  unfold selStep
  rw [if_neg (show ¬beats h.dist (some c) from hb)]

theorem selMin_none_cons (h : Hit) (t : List Hit) :
    selMin none (h :: t) = selMin (some h) t := by
  show List.foldl selStep (selStep none h) t = _
  rw [selStep_none]
  rfl

theorem textUpd_eq_cand (m : String → ℚ) (x y : ℚ) :
    ∀ (c : Option Hit) (ta : TextAnnot),
      textUpd m x y c ta = match textCand m x y ta with
        | some h => selStep c h
        | none => c := by
  intro c ta
  by_cases h1 : ta.x ≤ x ∧ x ≤ ta.x + (measureTextAnnot m ta.text ta.fontSize 1).1 ∧
      ta.y ≤ y ∧ y ≤ ta.y + (measureTextAnnot m ta.text ta.fontSize 1).2 <;>
    by_cases h2 : beats (hypot (x - (ta.x + (measureTextAnnot m ta.text ta.fontSize 1).1 / 2))
        (y - (ta.y + (measureTextAnnot m ta.text ta.fontSize 1).2 / 2))) c <;>
      simp [textUpd, textCand, selStep, h1, h2]

theorem stepUpd_eq_cand (ss x y : ℚ) :
    ∀ (c : Option Hit) (ind : StepIndicator),
      stepUpd ss x y c ind = match stepCand ss x y ind with
        | some h => selStep c h
        | none => c := by
  intro c ind
  by_cases h1 : hypot (ind.x - x) (ind.y - y) < (ss : ℝ) <;>
    by_cases h2 : beats (hypot (ind.x - x) (ind.y - y)) c <;>
      simp [stepUpd, stepCand, selStep, h1, h2]

theorem shapeUpd_eq_cand (x y : ℚ) :
    ∀ (c : Option Hit) (sh : Shape),
      shapeUpd x y c sh = match shapeCand x y sh with
        | some h => selStep c h
        | none => c := by
  intro c sh
  by_cases h1 : distanceToShape sh x y < (20 : ℝ) <;>
    by_cases h2 : beats (distanceToShape sh x y) c <;>
      simp [shapeUpd, shapeCand, selStep, h1, h2]

theorem foldl_upd_eq_selMin {α : Type} (f : α → Option Hit)
    (upd : Option Hit → α → Option Hit)
    (hupd : ∀ c a, upd c a = match f a with | some h => selStep c h | none => c) :
    ∀ (l : List α) (c : Option Hit), l.foldl upd c = selMin c (l.filterMap f) := by
  intro l
  induction l with
  | nil => intro c; rfl
  | cons a t ih =>
    intro c
    show t.foldl upd (upd c a) = selMin c ((a :: t).filterMap f)
    rw [List.filterMap_cons]
    cases hf : f a with
    | none =>
      rw [hupd c a, hf]
      exact ih c
    | some h =>
      rw [hupd c a, hf]
      exact ih (selStep c h)

theorem selMin_some_spec (l : List Hit) : ∀ c : Hit,
    ∃ r, selMin (some c) l = some r ∧ (r = c ∨ r ∈ l) ∧ r.dist ≤ c.dist ∧
      ∀ h ∈ l, r.dist ≤ h.dist := by
  induction l with
  | nil =>
    intro c
    exact ⟨c, rfl, Or.inl rfl, le_refl _, by simp⟩
  | cons h t ih =>
    intro c
    show ∃ r, selMin (selStep (some c) h) t = some r ∧ _ ∧ _ ∧ _
    by_cases hb : h.dist < c.dist
    · rw [selStep_lt c h hb]
      obtain ⟨r, hr, hmem, hrle, hall⟩ := ih h
      refine ⟨r, hr, ?_, le_trans hrle (le_of_lt hb), ?_⟩
      · rcases hmem with rfl | hm
        · exact Or.inr (List.mem_cons_self _ _)
        · exact Or.inr (List.mem_cons_of_mem _ hm)
      · intro g hg
        rcases List.mem_cons.mp hg with rfl | hgm
        · exact hrle
        · exact hall g hgm
    · rw [selStep_ge c h hb]
      obtain ⟨r, hr, hmem, hrle, hall⟩ := ih c
      refine ⟨r, hr, ?_, hrle, ?_⟩
      · rcases hmem with rfl | hm
        · exact Or.inl rfl
        · exact Or.inr (List.mem_cons_of_mem _ hm)
      · intro g hg
        rcases List.mem_cons.mp hg with rfl | hgm
        · exact le_trans hrle (not_lt.mp hb)
        · exact hall g hgm

theorem selMin_keep (l : List Hit) : ∀ c : Hit, (∀ h ∈ l, c.dist ≤ h.dist) →
    selMin (some c) l = some c := by
  induction l with
  | nil => intro c _; rfl
  | cons h t ih =>
    intro c hall
    show selMin (selStep (some c) h) t = some c
    rw [selStep_ge c h (not_lt.mpr (hall h (List.mem_cons_self _ _)))]
    exact ih c fun g hg => hall g (List.mem_cons_of_mem _ hg)

theorem selMin_first (r : Hit) (post : List Hit)
    (hpost : ∀ h ∈ post, r.dist ≤ h.dist) :
    ∀ (pre : List Hit) (c : Hit), r.dist < c.dist → (∀ h ∈ pre, r.dist < h.dist) →
      selMin (some c) (pre ++ r :: post) = some r := by
  intro pre
  induction pre with
  | nil =>
    intro c hc _
    show selMin (selStep (some c) r) post = some r
    rw [selStep_lt c r hc]
    exact selMin_keep post r hpost
  | cons p t ih =>
    intro c hc hpre
    show selMin (selStep (some c) p) (t ++ r :: post) = some r
    by_cases hb : p.dist < c.dist
    · rw [selStep_lt c p hb]
      exact ih p (hpre p (List.mem_cons_self _ _))
        fun g hg => hpre g (List.mem_cons_of_mem _ hg)
    · rw [selStep_ge c p hb]
      exact ih c hc fun g hg => hpre g (List.mem_cons_of_mem _ hg)

theorem findAnnotationAt_eq_selMin (m : String → ℚ) (texts : List TextAnnot)
    (inds : List StepIndicator) (shapes : List Shape) (ss x y : ℚ) :
    findAnnotationAt m texts inds shapes ss x y
      = selMin none (cands m texts inds shapes ss x y) := by
  unfold findAnnotationAt cands
  rw [foldl_upd_eq_selMin (textCand m x y) (textUpd m x y) (textUpd_eq_cand m x y)
        texts none,
      foldl_upd_eq_selMin (stepCand ss x y) (stepUpd ss x y) (stepUpd_eq_cand ss x y)
        inds _,
      foldl_upd_eq_selMin (shapeCand x y) (shapeUpd x y) (shapeUpd_eq_cand x y)
        shapes _]
  unfold selMin textCands stepCands shapeCands
  rw [List.foldl_append, List.foldl_append]

/-- C4 (amended): `findAnnotationAt` returns exactly the first minimum of the
within-threshold candidate list, which the three loops build in the fixed
order texts, then step indicators, then shapes, each in collection order.
So the candidate with the smallest (kind-specific) distance wins; at equal
distances the tie goes to the earlier candidate in that order — text beats
steps beats shapes, and within one kind the earlier (older) collection entry
beats the later; draw-order recency is never consulted. -/
theorem c4_closest_wins (m : String → ℚ) (texts : List TextAnnot)
    (inds : List StepIndicator) (shapes : List Shape) (ss x y : ℚ) :
    (findAnnotationAt m texts inds shapes ss x y = none ↔
      cands m texts inds shapes ss x y = []) ∧
    (∀ r : Hit, findAnnotationAt m texts inds shapes ss x y = some r →
      r ∈ cands m texts inds shapes ss x y ∧
        ∀ h ∈ cands m texts inds shapes ss x y, r.dist ≤ h.dist) ∧
    (∀ (pre post : List Hit) (r : Hit),
      cands m texts inds shapes ss x y = pre ++ r :: post →
      (∀ h ∈ pre, r.dist < h.dist) → (∀ h ∈ post, r.dist ≤ h.dist) →
      findAnnotationAt m texts inds shapes ss x y = some r) := by
  have he := findAnnotationAt_eq_selMin m texts inds shapes ss x y
  refine ⟨?_, ?_, ?_⟩
  · rw [he]
    cases hc : cands m texts inds shapes ss x y with
    | nil => simp [selMin]
    | cons h t =>
      constructor
      · intro hn
        obtain ⟨r, hr, _, _, _⟩ := selMin_some_spec t h
        rw [selMin_none_cons, hr] at hn
        exact absurd hn (by simp)
      · intro h0
        exact absurd h0 (by simp)
  · intro r hr
    rw [he] at hr
    cases hc : cands m texts inds shapes ss x y with
    | nil =>
      rw [hc] at hr
      exact absurd hr (by simp [selMin])
    | cons h t =>
      rw [hc, selMin_none_cons] at hr
      obtain ⟨r2, hr2, hmem, hrle, hall⟩ := selMin_some_spec t h
      rw [hr2] at hr
      injection hr with hr
      subst hr
      constructor
      · rcases hmem with rfl | hm
        · exact List.mem_cons_self _ _
        · exact List.mem_cons_of_mem _ hm
      · intro g hg
        rcases List.mem_cons.mp hg with rfl | hgm
        · exact hrle
        · exact hall g hgm
  · intro pre post r hc hpre hpost
    rw [he, hc]
    cases pre with
    | nil =>
      rw [List.nil_append, selMin_none_cons]
      exact selMin_keep post r hpost
    | cons p t =>
      rw [List.cons_append, selMin_none_cons]
      exact selMin_first r post hpost t p
        (hpre p (List.mem_cons_self _ _))
        fun g hg => hpre g (List.mem_cons_of_mem _ hg)

theorem distanceToShape_arrow_self (sh : Shape) (h : sh.type = .arrow) :
    distanceToShape sh sh.x1 sh.y1 = 0 := by
  have hcond : ¬(sh.type = .rect ∨ sh.type = .blur) := by
    rw [h]
    rintro (hh | hh) <;> exact ShapeType.noConfusion hh
  simp only [distanceToShape, if_neg hcond]
  by_cases hz : (sh.x2 - sh.x1) * (sh.x2 - sh.x1) + (sh.y2 - sh.y1) * (sh.y2 - sh.y1) = 0
  · rw [if_pos hz, sub_self, sub_self, hypot_zero]
  · rw [if_neg hz]
    have h0 : max (0 : ℚ) (min 1 (((sh.x1 - sh.x1) * (sh.x2 - sh.x1)
        + (sh.y1 - sh.y1) * (sh.y2 - sh.y1)) / ((sh.x2 - sh.x1) * (sh.x2 - sh.x1)
        + (sh.y2 - sh.y1) * (sh.y2 - sh.y1)))) = 0 := by
      rw [show (sh.x1 - sh.x1) * (sh.x2 - sh.x1) + (sh.y1 - sh.y1) * (sh.y2 - sh.y1)
          = 0 from by ring]
      norm_num
    rw [h0, show sh.x1 + 0 * (sh.x2 - sh.x1) = sh.x1 from by ring,
        show sh.y1 + 0 * (sh.y2 - sh.y1) = sh.y1 from by ring,
        sub_self, sub_self, hypot_zero]

/-- Counterexample to C4 as stated: two equal-distance shape candidates (two
degenerate arrows through the query point, both at distance 0, both within
threshold); `findAnnotationAt` returns the first-added `"a"`, not the most
recently drawn `"b"` the claim's recency tie-break demands. -/
theorem c4_recency_tiebreak_cex :
    distanceToShape arrA 0 0 = distanceToShape arrB 0 0 ∧
    distanceToShape arrA 0 0 < 20 ∧
    (findAnnotationAt (fun _ => 0) [] [] [arrA, arrB] 28 0 0).map
        (fun h => (h.id, h.kind)) = some ("a", AKind.shape) := by
  have hda : distanceToShape arrA 0 0 = 0 := by
    have h := distanceToShape_arrow_self arrA rfl
    simpa [arrA, mkShape] using h
  have hdb : distanceToShape arrB 0 0 = 0 := by
    have h := distanceToShape_arrow_self arrB rfl
    simpa [arrB, mkShape] using h
  refine ⟨by rw [hda, hdb], by rw [hda]; norm_num, ?_⟩
  have hinner : shapeUpd 0 0 none arrA = some ⟨arrA.id, AKind.shape, 0⟩ := by
    unfold shapeUpd
    rw [hda]
    rw [if_pos ⟨by norm_num, (trivial : beats 0 none)⟩]
  have houter : shapeUpd 0 0 (some ⟨arrA.id, AKind.shape, 0⟩) arrB
      = some ⟨arrA.id, AKind.shape, 0⟩ := by
    unfold shapeUpd
    rw [hdb]
    rw [if_neg (show ¬((0 : ℝ) < 20 ∧ beats 0 (some ⟨arrA.id, AKind.shape, 0⟩)) from
      fun hh => absurd hh.2 (lt_irrefl (0 : ℝ)))]
  show ((shapeUpd 0 0 (shapeUpd 0 0 none arrA) arrB)).map (fun h => (h.id, h.kind))
      = some ("a", AKind.shape)
  rw [hinner, houter]
  rfl

/-- Witness for C4: a scene with a single within-threshold shape returns that
shape, by the first-minimum characterisation with empty prefix and suffix. -/
theorem c4_closest_wins_witness :
    findAnnotationAt (fun _ => 0) [] [] [arrA] 28 0 0
      = some ⟨"a", AKind.shape, distanceToShape arrA 0 0⟩ := by
  have hda : distanceToShape arrA 0 0 = 0 := by
    have h := distanceToShape_arrow_self arrA rfl
    simpa [arrA, mkShape] using h
  have hc : cands (fun _ => 0) [] [] [arrA] 28 0 0
      = [] ++ (⟨"a", AKind.shape, distanceToShape arrA 0 0⟩ : Hit) :: [] := by
    show [] ++ ([arrA].filterMap (shapeCand 0 0)) = _
    rw [List.nil_append, List.filterMap_cons]
    rw [show shapeCand 0 0 arrA = some ⟨"a", AKind.shape, distanceToShape arrA 0 0⟩ from ?_]
    · rfl
    · unfold shapeCand
      rw [if_pos (by rw [hda]; norm_num)]
      rfl
  exact (c4_closest_wins (fun _ => 0) [] [] [arrA] 28 0 0).2.2 [] [] _ hc
    (by simp) (by simp)

/-! ## C5 — reflexivity of hit-testing at the anchor point -/

theorem le_foldl_max (l : List ℚ) : ∀ a : ℚ, a ≤ l.foldl max a := by
  induction l with
  | nil => intro a; exact le_refl a
  | cons x t ih =>
    intro a
    exact le_trans (le_max_left a x) (ih (max a x))

theorem measureTextAnnot_pos (m : String → ℚ) (text : String) (fontSize : ℚ)
    (hf : 0 ≤ fontSize) :
    0 ≤ (measureTextAnnot m text fontSize 1).1 ∧
      0 ≤ (measureTextAnnot m text fontSize 1).2 := by
  unfold measureTextAnnot
  constructor
  · have h := le_foldl_max
      ((text.splitOn "\n").map fun line => m (if line = "" then " " else line)) 0
    simp only
    linarith
  · simp only
    have h1 : (0 : ℚ) ≤ fontSize * 1 * (6 / 5) * ((text.splitOn "\n").length : ℚ) := by
      positivity
    linarith

theorem distanceToShape_center_lt (sh : Shape)
    (hty : sh.type = .rect ∨ sh.type = .blur)
    (hsize : |sh.x2 - sh.x1| < 40 ∨ |sh.y2 - sh.y1| < 40) :
    distanceToShape sh ((sh.x1 + sh.x2) / 2) ((sh.y1 + sh.y2) / 2) < 20 := by
  have hxm : min sh.x1 sh.x2 + |sh.x2 - sh.x1| = max sh.x1 sh.x2 := by
    rw [← max_sub_min_eq_abs]
    ring
  have hym : min sh.y1 sh.y2 + |sh.y2 - sh.y1| = max sh.y1 sh.y2 := by
    rw [← max_sub_min_eq_abs]
    ring
  have hx1 := min_le_left sh.x1 sh.x2
  have hx2 := min_le_right sh.x1 sh.x2
  have hx3 := le_max_left sh.x1 sh.x2
  have hx4 := le_max_right sh.x1 sh.x2
  have hy1 := min_le_left sh.y1 sh.y2
  have hy2 := min_le_right sh.y1 sh.y2
  have hy3 := le_max_left sh.y1 sh.y2
  have hy4 := le_max_right sh.y1 sh.y2
  have hin : min sh.x1 sh.x2 ≤ (sh.x1 + sh.x2) / 2 ∧
      (sh.x1 + sh.x2) / 2 ≤ min sh.x1 sh.x2 + |sh.x2 - sh.x1| ∧
      min sh.y1 sh.y2 ≤ (sh.y1 + sh.y2) / 2 ∧
      (sh.y1 + sh.y2) / 2 ≤ min sh.y1 sh.y2 + |sh.y2 - sh.y1| := by
    refine ⟨by linarith, ?_, by linarith, ?_⟩
    · rw [hxm]
      linarith
    · rw [hym]
      linarith
  simp only [distanceToShape, if_pos hty, if_pos hin]
  have hq : min ((sh.x1 + sh.x2) / 2 - min sh.x1 sh.x2)
      (min (min sh.x1 sh.x2 + |sh.x2 - sh.x1| - (sh.x1 + sh.x2) / 2)
        (min ((sh.y1 + sh.y2) / 2 - min sh.y1 sh.y2)
          (min sh.y1 sh.y2 + |sh.y2 - sh.y1| - (sh.y1 + sh.y2) / 2))) < (20 : ℚ) := by
    rcases hsize with hs | hs
    · calc min ((sh.x1 + sh.x2) / 2 - min sh.x1 sh.x2) _
          ≤ (sh.x1 + sh.x2) / 2 - min sh.x1 sh.x2 := min_le_left _ _
        _ < 20 := by
            have : min sh.x1 sh.x2 + max sh.x1 sh.x2 = sh.x1 + sh.x2 :=
              min_add_max sh.x1 sh.x2
            have habs : max sh.x1 sh.x2 - min sh.x1 sh.x2 < 40 := by
              rw [max_sub_min_eq_abs]
              exact hs
            linarith
    · calc min ((sh.x1 + sh.x2) / 2 - min sh.x1 sh.x2) _
          ≤ min ((sh.y1 + sh.y2) / 2 - min sh.y1 sh.y2)
              (min sh.y1 sh.y2 + |sh.y2 - sh.y1| - (sh.y1 + sh.y2) / 2) :=
            le_trans (min_le_right _ _) (min_le_right _ _)
        _ ≤ (sh.y1 + sh.y2) / 2 - min sh.y1 sh.y2 := min_le_left _ _
        _ < 20 := by
            have : min sh.y1 sh.y2 + max sh.y1 sh.y2 = sh.y1 + sh.y2 :=
              min_add_max sh.y1 sh.y2
            have habs : max sh.y1 sh.y2 - min sh.y1 sh.y2 < 40 := by
              rw [max_sub_min_eq_abs]
              exact hs
            linarith
  calc ((min ((sh.x1 + sh.x2) / 2 - min sh.x1 sh.x2)
      (min (min sh.x1 sh.x2 + |sh.x2 - sh.x1| - (sh.x1 + sh.x2) / 2)
        (min ((sh.y1 + sh.y2) / 2 - min sh.y1 sh.y2)
          (min sh.y1 sh.y2 + |sh.y2 - sh.y1| - (sh.y1 + sh.y2) / 2))) : ℚ) : ℝ)
      < ((20 : ℚ) : ℝ) := by exact_mod_cast hq
    _ = (20 : ℝ) := by norm_num

/-- C5 (amended): hit-testing is reflexive at an annotation's own anchor for
single-annotation scenes — a step indicator at its center (for a positive
step size), an arrow at its `(x1, y1)` endpoint, a text annotation at its
top-left corner (for a non-negative font size) — and for a rect/blur shape
at its box center only when the box's smaller dimension is below 40px (so
the center-to-edge distance is below the 20px threshold). -/
theorem c5_reflexive_hit :
    (∀ (m : String → ℚ) (ss : ℚ) (ind : StepIndicator), 0 < ss →
      (findAnnotationAt m [] [ind] [] ss ind.x ind.y).map (fun h => (h.id, h.kind))
        = some (ind.id, AKind.step)) ∧
    (∀ (m : String → ℚ) (ss : ℚ) (sh : Shape), sh.type = .arrow →
      (findAnnotationAt m [] [] [sh] ss sh.x1 sh.y1).map (fun h => (h.id, h.kind))
        = some (sh.id, AKind.shape)) ∧
    (∀ (m : String → ℚ) (ss : ℚ) (ta : TextAnnot), 0 ≤ ta.fontSize →
      (findAnnotationAt m [ta] [] [] ss ta.x ta.y).map (fun h => (h.id, h.kind))
        = some (ta.id, AKind.text)) ∧
    (∀ (m : String → ℚ) (ss : ℚ) (sh : Shape),
      sh.type = .rect ∨ sh.type = .blur →
      |sh.x2 - sh.x1| < 40 ∨ |sh.y2 - sh.y1| < 40 →
      (findAnnotationAt m [] [] [sh] ss ((sh.x1 + sh.x2) / 2)
          ((sh.y1 + sh.y2) / 2)).map (fun h => (h.id, h.kind))
        = some (sh.id, AKind.shape)) := by
  refine ⟨?_, ?_, ?_, ?_⟩
  · intro m ss ind hss
    show ((([] : List Shape).foldl (shapeUpd ind.x ind.y)
        (stepUpd ss ind.x ind.y (([] : List TextAnnot).foldl
          (textUpd m ind.x ind.y) none) ind))).map (fun h => (h.id, h.kind)) = _
    show ((stepUpd ss ind.x ind.y none ind)).map (fun h => (h.id, h.kind)) = _
    unfold stepUpd
    rw [sub_self, sub_self, hypot_zero]
    rw [if_pos ⟨by exact_mod_cast hss, (trivial : beats 0 none)⟩]
    rfl
  · intro m ss sh harr
    show ((shapeUpd sh.x1 sh.y1 none sh)).map (fun h => (h.id, h.kind)) = _
    unfold shapeUpd
    rw [distanceToShape_arrow_self sh harr]
    rw [if_pos ⟨by norm_num, (trivial : beats 0 none)⟩]
    rfl
  · intro m ss ta hf
    show ((textUpd m ta.x ta.y none ta)).map (fun h => (h.id, h.kind)) = _
    unfold textUpd
    obtain ⟨hw, hh⟩ := measureTextAnnot_pos m ta.text ta.fontSize hf
    rw [if_pos ⟨le_refl _, by linarith, le_refl _, by linarith⟩]
    rw [if_pos (show beats
      (hypot (ta.x - (ta.x + (measureTextAnnot m ta.text ta.fontSize 1).1 / 2))
        (ta.y - (ta.y + (measureTextAnnot m ta.text ta.fontSize 1).2 / 2))) none
      from trivial)]
    rfl
  · intro m ss sh hty hsize
    show ((shapeUpd ((sh.x1 + sh.x2) / 2) ((sh.y1 + sh.y2) / 2) none sh)).map
        (fun h => (h.id, h.kind)) = _
    unfold shapeUpd
    rw [if_pos ⟨distanceToShape_center_lt sh hty hsize, (trivial : beats _ none)⟩]
    rfl

/-- Witness for C5 (amended): concrete single-annotation scenes — a step at
its center, a degenerate arrow at its endpoint, a text annotation at its
top-left, and a 30×30 rect at its center — each report themselves. -/
theorem c5_reflexive_hit_witness :
    (findAnnotationAt (fun _ => 0) [] [mkStep "s" 7 9 "1."] [] 28 7 9).map
        (fun h => (h.id, h.kind)) = some ("s", AKind.step) ∧
    (findAnnotationAt (fun _ => 0) [] [] [arrA] 28 0 0).map
        (fun h => (h.id, h.kind)) = some ("a", AKind.shape) ∧
    (findAnnotationAt (fun _ => 0) [⟨"t", 3, 4, "hi", 16, "#fff", 50, 25⟩] [] []
        28 3 4).map (fun h => (h.id, h.kind)) = some ("t", AKind.text) ∧
    (findAnnotationAt (fun _ => 0) [] [] [mkShape "r2" .rect 0 0 30 30] 28 15 15).map
        (fun h => (h.id, h.kind)) = some ("r2", AKind.shape) := by
  refine ⟨?_, ?_, ?_, ?_⟩
  · exact c5_reflexive_hit.1 (fun _ => 0) 28 (mkStep "s" 7 9 "1.") (by norm_num)
  · have h := c5_reflexive_hit.2.1 (fun _ => 0) 28 arrA rfl
    simpa [arrA, mkShape] using h
  · exact c5_reflexive_hit.2.2.1 (fun _ => 0) 28 ⟨"t", 3, 4, "hi", 16, "#fff", 50, 25⟩
      (by norm_num)
  · have h := c5_reflexive_hit.2.2.2 (fun _ => 0) 28 (mkShape "r2" .rect 0 0 30 30)
      (Or.inl rfl) (by norm_num [mkShape])
    have hx : ((mkShape "r2" ShapeType.rect 0 0 30 30).x1
        + (mkShape "r2" ShapeType.rect 0 0 30 30).x2) / 2 = (15 : ℚ) := by
      norm_num [mkShape]
    have hy : ((mkShape "r2" ShapeType.rect 0 0 30 30).y1
        + (mkShape "r2" ShapeType.rect 0 0 30 30).y2) / 2 = (15 : ℚ) := by
      norm_num [mkShape]
    rw [hx, hy] at h
    exact h

/-- Counterexample to C5 as stated: the center (50, 50) of a 100×100 rect is
50px from every edge — beyond the 20px threshold — so hit-testing the
rect's own center reports no hit at all. -/
theorem c5_large_rect_cex :
    findAnnotationAt (fun _ => 0) [] [] [bigRect] 28 50 50 = none := by
  show shapeUpd 50 50 none bigRect = none
  unfold shapeUpd
  rw [if_neg]
  rintro ⟨hlt, _⟩
  have hd : distanceToShape bigRect 50 50 = ((50 : ℚ) : ℝ) := by
    have hty : bigRect.type = .rect ∨ bigRect.type = .blur := Or.inl rfl
    simp only [distanceToShape, if_pos hty]
    rw [if_pos (by norm_num [bigRect, mkShape])]
    norm_num [bigRect, mkShape]
  rw [hd] at hlt
  norm_num at hlt

/-! ## C1 — DrawOrder / collections synchronisation -/

theorem memSteps_iff (s : TabState) (j : String) :
    memSteps s j = true ↔ j ∈ s.stepIndicators.map StepIndicator.id := by
  simp [memSteps, List.any_eq_true, List.mem_map]

theorem memShapes_iff (s : TabState) (j : String) :
    memShapes s j = true ↔ j ∈ s.shapes.map Shape.id := by
  simp [memShapes, List.any_eq_true, List.mem_map]

theorem memTexts_iff (s : TabState) (j : String) :
    memTexts s j = true ↔ j ∈ s.textAnnots.map TextAnnot.id := by
  simp [memTexts, List.any_eq_true, List.mem_map]

theorem count_zero_of_memSteps_false (s : TabState) (j : String)
    (h : memSteps s j = false) : (s.stepIndicators.map StepIndicator.id).count j = 0 :=
  List.count_eq_zero.mpr fun hm => by
    rw [(memSteps_iff s j).mpr hm] at h
    exact Bool.noConfusion h

theorem count_zero_of_memShapes_false (s : TabState) (j : String)
    (h : memShapes s j = false) : (s.shapes.map Shape.id).count j = 0 :=
  List.count_eq_zero.mpr fun hm => by
    rw [(memShapes_iff s j).mpr hm] at h
    exact Bool.noConfusion h

theorem count_zero_of_memTexts_false (s : TabState) (j : String)
    (h : memTexts s j = false) : (s.textAnnots.map TextAnnot.id).count j = 0 :=
  List.count_eq_zero.mpr fun hm => by
    rw [(memTexts_iff s j).mpr hm] at h
    exact Bool.noConfusion h

theorem freshFor_counts (s : TabState) (j : String) (h : freshFor s j) :
    s.drawOrder.count j = 0 ∧ (s.stepIndicators.map StepIndicator.id).count j = 0 ∧
    (s.shapes.map Shape.id).count j = 0 ∧ (s.textAnnots.map TextAnnot.id).count j = 0 := by
  obtain ⟨h0, h1, h2, h3⟩ := h
  exact ⟨List.count_eq_zero.mpr h0, count_zero_of_memSteps_false s j h1,
    count_zero_of_memShapes_false s j h2, count_zero_of_memTexts_false s j h3⟩

theorem count_filter_ne (aid i : String) (l : List String) :
    (l.filter fun x => x ≠ aid).count i = if i = aid then 0 else l.count i := by
  by_cases h : i = aid
  · rw [if_pos h]
    subst h
    refine List.count_eq_zero.mpr fun hm => ?_
    have hp := List.of_mem_filter hm
    simp at hp
  · rw [if_neg h]
    exact List.count_filter (by simpa using h)

theorem map_id_filter {α : Type} (f : α → String) (aid : String) (l : List α) :
    (l.filter fun a => f a ≠ aid).map f = (l.map f).filter fun i => i ≠ aid := by
  induction l with
  | nil => rfl
  | cons a t ih =>
    simp only [List.map_cons, List.filter_cons]
    by_cases h : f a = aid
    · simp_all
    · simp_all

theorem count_erase_append_self (aid i : String) (l : List String) (h : aid ∈ l) :
    (l.erase aid ++ [aid]).count i = l.count i := by
  have h3 : 0 < l.count aid := List.count_pos_iff.mpr h
  rw [List.count_append, List.count_erase, List.count_singleton']
  simp only [beq_iff_eq]
  by_cases h2 : aid = i
  · subst h2
    simp
    omega
  · simp [h2]

theorem count_cons_erase_self (aid i : String) (l : List String) (h : aid ∈ l) :
    (aid :: l.erase aid).count i = l.count i := by
  have h3 : 0 < l.count aid := List.count_pos_iff.mpr h
  rw [List.count_cons, List.count_erase]
  simp only [beq_iff_eq]
  by_cases h2 : aid = i
  · subst h2
    simp
    omega
  · simp [h2]

theorem snapshot_snapWF (s : TabState)
    (h : sceneWF s.stepIndicators s.shapes s.textAnnots s.drawOrder) :
    snapWF (snapshot s) := h

theorem pushUndoHist_wf (s : TabState) (hwf : stateWF s) :
    (∀ p ∈ (pushUndoHist s).undoStack, snapWF p) ∧
      (∀ p ∈ (pushUndoHist s).redoStack, snapWF p) := by
  constructor
  · intro p hp
    rcases List.mem_append.mp hp with h | h
    · exact hwf.2.1 p (List.mem_of_mem_drop h)
    · rw [List.mem_singleton] at h
      subst h
      exact snapshot_snapWF s hwf.1
  · intro p hp
    exact absurd hp (List.not_mem_nil p)

theorem histCWI_snapWF (s : TabState) (p : AnnotationSnapshot)
    (h : sceneWF s.stepIndicators s.shapes s.textAnnots s.drawOrder) :
    snapWF (histCWI s p) := by
  obtain ⟨h1, h2, h3, _, h5⟩ := histCWI_fields s p
  unfold snapWF
  rw [h1, h2, h3, h5]
  exact h

theorem batch_ids_steps (moves : List BatchStepMove) (l : List StepIndicator) :
    ((l.map fun st =>
      match mapGetLast st.id BatchStepMove.id moves with
      | some m => { st with x := m.x, y := m.y }
      | none => st).map StepIndicator.id) = l.map StepIndicator.id := by
  rw [List.map_map]
  apply List.map_congr_left
  intro st _
  show (match mapGetLast st.id BatchStepMove.id moves with
        | some m => ({ st with x := m.x, y := m.y } : StepIndicator)
        | none => st).id = st.id
  cases mapGetLast st.id BatchStepMove.id moves <;> rfl

theorem batch_ids_shapes (moves : List BatchShapeMove) (l : List Shape) :
    ((l.map fun sh =>
      match mapGetLast sh.id BatchShapeMove.id moves with
      | some m => { sh with x1 := m.x1, y1 := m.y1, x2 := m.x2, y2 := m.y2 }
      | none => sh).map Shape.id) = l.map Shape.id := by
  rw [List.map_map]
  apply List.map_congr_left
  intro sh _
  show (match mapGetLast sh.id BatchShapeMove.id moves with
        | some m => ({ sh with x1 := m.x1, y1 := m.y1, x2 := m.x2, y2 := m.y2 } : Shape)
        | none => sh).id = sh.id
  cases mapGetLast sh.id BatchShapeMove.id moves <;> rfl

theorem batch_ids_texts (moves : List BatchTextMove) (l : List TextAnnot) :
    ((l.map fun t =>
      match mapGetLast t.id BatchTextMove.id moves with
      | some m => { t with x := m.x, y := m.y }
      | none => t).map TextAnnot.id) = l.map TextAnnot.id := by
  rw [List.map_map]
  apply List.map_congr_left
  intro t _
  show (match mapGetLast t.id BatchTextMove.id moves with
        | some m => ({ t with x := m.x, y := m.y } : TextAnnot)
        | none => t).id = t.id
  cases mapGetLast t.id BatchTextMove.id moves <;> rfl

theorem stateWF_preserve (a : Action) (s : TabState) (hwf : stateWF s)
    (hok : c1OK s a) : stateWF (reducer s a) := by
  cases a with
  | ADD_STEP_INDICATOR ind =>
    obtain ⟨hd0, hs0, hh0, ht0⟩ := freshFor_counts s ind.id hok
    have hscene : sceneWF (s.stepIndicators ++ [ind]) s.shapes s.textAnnots
        (s.drawOrder ++ [ind.id]) := by
      intro i
      obtain ⟨hc, hle⟩ := hwf.1 i
      rw [List.count_append, List.map_append, List.count_append,
        show ([ind].map StepIndicator.id) = [ind.id] from rfl,
        List.count_singleton']
      by_cases h2 : ind.id = i
      · rw [if_pos h2]
        subst h2
        constructor <;> omega
      · rw [if_neg h2]
        constructor <;> omega
    exact ⟨hscene, (pushUndoHist_wf s hwf).1, (pushUndoHist_wf s hwf).2⟩
  | ADD_SHAPE sh =>
    obtain ⟨hd0, hs0, hh0, ht0⟩ := freshFor_counts s sh.id hok
    have hscene : sceneWF s.stepIndicators (s.shapes ++ [sh]) s.textAnnots
        (s.drawOrder ++ [sh.id]) := by
      intro i
      obtain ⟨hc, hle⟩ := hwf.1 i
      rw [List.count_append, List.map_append, List.count_append,
        show ([sh].map Shape.id) = [sh.id] from rfl,
        List.count_singleton']
      by_cases h2 : sh.id = i
      · rw [if_pos h2]
        subst h2
        constructor <;> omega
      · rw [if_neg h2]
        constructor <;> omega
    exact ⟨hscene, (pushUndoHist_wf s hwf).1, (pushUndoHist_wf s hwf).2⟩
  | ADD_SHAPES shs =>
    have hscene : sceneWF s.stepIndicators (s.shapes ++ shs) s.textAnnots
        (s.drawOrder ++ shs.map Shape.id) := by
      intro i
      obtain ⟨hc, hle⟩ := hwf.1 i
      rw [List.count_append, List.map_append, List.count_append]
      by_cases hmem : i ∈ shs.map Shape.id
      · obtain ⟨sh, hsh, hid⟩ := List.mem_map.mp hmem
        have hfresh := freshFor_counts s sh.id (hok.2 sh hsh)
        rw [hid] at hfresh
        obtain ⟨f0, f1, f2, f3⟩ := hfresh
        have hcnt : (shs.map Shape.id).count i ≤ 1 :=
          List.nodup_iff_count_le_one.mp hok.1 i
        have hcnt2 : 0 < (shs.map Shape.id).count i := List.count_pos_iff.mpr hmem
        constructor <;> omega
      · have hz : (shs.map Shape.id).count i = 0 := List.count_eq_zero.mpr hmem
        constructor <;> omega
    exact ⟨hscene, (pushUndoHist_wf s hwf).1, (pushUndoHist_wf s hwf).2⟩
  | ADD_TEXT_ANNOTATION a =>
    obtain ⟨hd0, hs0, hh0, ht0⟩ := freshFor_counts s a.id hok
    have hscene : sceneWF s.stepIndicators s.shapes (s.textAnnots ++ [a])
        (s.drawOrder ++ [a.id]) := by
      intro i
      obtain ⟨hc, hle⟩ := hwf.1 i
      rw [List.count_append, List.map_append, List.count_append,
        show ([a].map TextAnnot.id) = [a.id] from rfl,
        List.count_singleton']
      by_cases h2 : a.id = i
      · rw [if_pos h2]
        subst h2
        constructor <;> omega
      · rw [if_neg h2]
        constructor <;> omega
    exact ⟨hscene, (pushUndoHist_wf s hwf).1, (pushUndoHist_wf s hwf).2⟩
  | UPDATE_TEXT_ANNOTATION id ch skip => exact hok.elim
  | UPDATE_SHAPE id ch skip => exact hok.elim
  | UPDATE_STEP_INDICATOR id ch skip => exact hok.elim
  | PUSH_UNDO => exact hok.elim
  | SET_SELECTION id kind => exact hok.elim
  | COMMIT_IMAGE_CHANGE img thumb => exact hok.elim
  | REMOVE_ANNOTATION aid =>
    have hscene : sceneWF (s.stepIndicators.filter fun i => i.id ≠ aid)
        (s.shapes.filter fun sh => sh.id ≠ aid)
        (s.textAnnots.filter fun t => t.id ≠ aid)
        (s.drawOrder.filter fun i => i ≠ aid) := by
      intro i
      obtain ⟨hc, hle⟩ := hwf.1 i
      rw [map_id_filter StepIndicator.id aid, map_id_filter Shape.id aid,
        map_id_filter TextAnnot.id aid, count_filter_ne, count_filter_ne,
        count_filter_ne, count_filter_ne]
      by_cases h2 : i = aid
      · simp only [if_pos h2]
        refine ⟨?_, ?_⟩ <;> simp
      · simp only [if_neg h2]
        exact ⟨hc, hle⟩
    exact ⟨hscene, (pushUndoHist_wf s hwf).1, (pushUndoHist_wf s hwf).2⟩
  | UNDO =>
    rcases List.eq_nil_or_concat s.history.undoStack with hu | ⟨L, b, hu⟩
    · have hr : reducer s .UNDO = s := by
        show (match s.history.undoStack.getLast? with
              | none => s
              | some prev =>
                { s with
                  stepIndicators := prev.stepIndicators
                  shapes := prev.shapes
                  textAnnots := prev.textAnnots
                  nextStepNumber := prev.nextStepNumber
                  drawOrder := prev.drawOrder
                  history := { undoStack := s.history.undoStack.dropLast
                               redoStack := s.history.redoStack ++ [histCWI s prev] }
                  tab := restoreTab s.tab prev }) = s
        rw [hu]
        rfl
      rw [hr]
      exact hwf
    · rw [List.concat_eq_append] at hu
      have hget : s.history.undoStack.getLast? = some b := by
        rw [hu]
        exact List.getLast?_concat _
      have hr : reducer s .UNDO = { s with
          stepIndicators := b.stepIndicators
          shapes := b.shapes
          textAnnots := b.textAnnots
          nextStepNumber := b.nextStepNumber
          drawOrder := b.drawOrder
          history := { undoStack := s.history.undoStack.dropLast
                       redoStack := s.history.redoStack ++ [histCWI s b] }
          tab := restoreTab s.tab b } := by
        show (match s.history.undoStack.getLast? with
              | none => s
              | some prev =>
                { s with
                  stepIndicators := prev.stepIndicators
                  shapes := prev.shapes
                  textAnnots := prev.textAnnots
                  nextStepNumber := prev.nextStepNumber
                  drawOrder := prev.drawOrder
                  history := { undoStack := s.history.undoStack.dropLast
                               redoStack := s.history.redoStack ++ [histCWI s prev] }
                  tab := restoreTab s.tab prev }) = _
        rw [hget]
      rw [hr]
      have hbwf : snapWF b := hwf.2.1 b (by
        rw [hu]
        exact List.mem_append_right _ (List.mem_singleton_self _))
      refine ⟨hbwf, ?_, ?_⟩
      · intro p hp
        exact hwf.2.1 p (List.dropLast_subset _ hp)
      · intro p hp
        rcases List.mem_append.mp hp with h | h
        · exact hwf.2.2 p h
        · rw [List.mem_singleton] at h
          subst h
          exact histCWI_snapWF s b hwf.1
  | REDO =>
    rcases List.eq_nil_or_concat s.history.redoStack with hu | ⟨L, b, hu⟩
    · have hr : reducer s .REDO = s := by
        show (match s.history.redoStack.getLast? with
              | none => s
              | some nxt =>
                { s with
                  stepIndicators := nxt.stepIndicators
                  shapes := nxt.shapes
                  textAnnots := nxt.textAnnots
                  nextStepNumber := nxt.nextStepNumber
                  drawOrder := nxt.drawOrder
                  history := { undoStack := s.history.undoStack ++ [histCWI s nxt]
                               redoStack := s.history.redoStack.dropLast }
                  tab := restoreTab s.tab nxt }) = s
        rw [hu]
        rfl
      rw [hr]
      exact hwf
    · rw [List.concat_eq_append] at hu
      have hget : s.history.redoStack.getLast? = some b := by
        rw [hu]
        exact List.getLast?_concat _
      have hr : reducer s .REDO = { s with
          stepIndicators := b.stepIndicators
          shapes := b.shapes
          textAnnots := b.textAnnots
          nextStepNumber := b.nextStepNumber
          drawOrder := b.drawOrder
          history := { undoStack := s.history.undoStack ++ [histCWI s b]
                       redoStack := s.history.redoStack.dropLast }
          tab := restoreTab s.tab b } := by
        show (match s.history.redoStack.getLast? with
              | none => s
              | some nxt =>
                { s with
                  stepIndicators := nxt.stepIndicators
                  shapes := nxt.shapes
                  textAnnots := nxt.textAnnots
                  nextStepNumber := nxt.nextStepNumber
                  drawOrder := nxt.drawOrder
                  history := { undoStack := s.history.undoStack ++ [histCWI s nxt]
                               redoStack := s.history.redoStack.dropLast }
                  tab := restoreTab s.tab nxt }) = _
        rw [hget]
      rw [hr]
      have hbwf : snapWF b := hwf.2.2 b (by
        rw [hu]
        exact List.mem_append_right _ (List.mem_singleton_self _))
      refine ⟨hbwf, ?_, ?_⟩
      · intro p hp
        rcases List.mem_append.mp hp with h | h
        · exact hwf.2.1 p h
        · rw [List.mem_singleton] at h
          subst h
          exact histCWI_snapWF s b hwf.1
      · intro p hp
        exact hwf.2.2 p (List.dropLast_subset _ hp)
  | CROP_IMAGE img thumb =>
    cases htab : s.tab with
    | none =>
      have hr : reducer s (.CROP_IMAGE img thumb) = s := by
        show (match s.tab with
              | none => s
              | some tab => _) = s
        rw [htab]
      rw [hr]
      exact hwf
    | some tab =>
      refine ⟨?_, ?_, ?_⟩
      · show sceneWF (reducer s (.CROP_IMAGE img thumb)).stepIndicators
          (reducer s (.CROP_IMAGE img thumb)).shapes
          (reducer s (.CROP_IMAGE img thumb)).textAnnots
          (reducer s (.CROP_IMAGE img thumb)).drawOrder
        have h1 : (reducer s (.CROP_IMAGE img thumb)).stepIndicators = [] := by
          show (match s.tab with | none => s | some tab => _ : TabState).stepIndicators = []
          rw [htab]
        have h2 : (reducer s (.CROP_IMAGE img thumb)).shapes = [] := by
          show (match s.tab with | none => s | some tab => _ : TabState).shapes = []
          rw [htab]
        have h3 : (reducer s (.CROP_IMAGE img thumb)).textAnnots = [] := by
          show (match s.tab with | none => s | some tab => _ : TabState).textAnnots = []
          rw [htab]
        have h4 : (reducer s (.CROP_IMAGE img thumb)).drawOrder = [] := by
          show (match s.tab with | none => s | some tab => _ : TabState).drawOrder = []
          rw [htab]
        rw [h1, h2, h3, h4]
        intro i
        simp
      · intro p hp
        have h5 : (reducer s (.CROP_IMAGE img thumb)).history.undoStack
            = sliceLast (MAX_HISTORY - 1) s.history.undoStack
              ++ [{ snapshot s with imageDataURL := some tab.imageDataURL
                                    thumbnail := some tab.thumbnail }] := by
          show (match s.tab with | none => s | some tab => _ : TabState).history.undoStack = _
          rw [htab]
        rw [h5] at hp
        rcases List.mem_append.mp hp with h | h
        · exact hwf.2.1 p (List.mem_of_mem_drop h)
        · rw [List.mem_singleton] at h
          subst h
          exact hwf.1
      · intro p hp
        have h6 : (reducer s (.CROP_IMAGE img thumb)).history.redoStack = [] := by
          show (match s.tab with | none => s | some tab => _ : TabState).history.redoStack = []
          rw [htab]
        rw [h6] at hp
        exact absurd hp (List.not_mem_nil p)
  | BATCH_MOVE st sh tx skip =>
    have hscene : ∀ i : String,
        (s.drawOrder.count i
          = ((s.stepIndicators.map fun a =>
              match mapGetLast a.id BatchStepMove.id st with
              | some m => { a with x := m.x, y := m.y }
              | none => a).map StepIndicator.id).count i
            + ((s.shapes.map fun a =>
              match mapGetLast a.id BatchShapeMove.id sh with
              | some m => { a with x1 := m.x1, y1 := m.y1, x2 := m.x2, y2 := m.y2 }
              | none => a).map Shape.id).count i
            + ((s.textAnnots.map fun a =>
              match mapGetLast a.id BatchTextMove.id tx with
              | some m => { a with x := m.x, y := m.y }
              | none => a).map TextAnnot.id).count i) ∧
        ((s.stepIndicators.map fun a =>
            match mapGetLast a.id BatchStepMove.id st with
            | some m => { a with x := m.x, y := m.y }
            | none => a).map StepIndicator.id).count i
          + ((s.shapes.map fun a =>
            match mapGetLast a.id BatchShapeMove.id sh with
            | some m => { a with x1 := m.x1, y1 := m.y1, x2 := m.x2, y2 := m.y2 }
            | none => a).map Shape.id).count i
          + ((s.textAnnots.map fun a =>
            match mapGetLast a.id BatchTextMove.id tx with
            | some m => { a with x := m.x, y := m.y }
            | none => a).map TextAnnot.id).count i ≤ 1 := by
      intro i
      rw [batch_ids_steps, batch_ids_shapes, batch_ids_texts]
      exact hwf.1 i
    cases skip
    · exact ⟨hscene, (pushUndoHist_wf s hwf).1, (pushUndoHist_wf s hwf).2⟩
    · exact ⟨hscene, hwf.2.1, hwf.2.2⟩
  | REORDER_ANNOTATION aid dir =>
    cases dir with
    | front =>
      by_cases hmem : aid ∈ s.drawOrder
      · have hr : reducer s (.REORDER_ANNOTATION aid .front)
            = { s with history := pushUndoHist s
                       drawOrder := s.drawOrder.erase aid ++ [aid] } := by
          show (if aid ∈ s.drawOrder then _ else _ : TabState) = _
          rw [if_pos hmem]
        rw [hr]
        have hscene : sceneWF s.stepIndicators s.shapes s.textAnnots
            (s.drawOrder.erase aid ++ [aid]) := by
          intro i
          obtain ⟨hc, hle⟩ := hwf.1 i
          rw [count_erase_append_self aid i _ hmem]
          exact ⟨hc, hle⟩
        exact ⟨hscene, (pushUndoHist_wf s hwf).1, (pushUndoHist_wf s hwf).2⟩
      · have hr : reducer s (.REORDER_ANNOTATION aid .front)
            = { s with history := pushUndoHist s } := by
          show (if aid ∈ s.drawOrder then _ else _ : TabState) = _
          rw [if_neg hmem]
        rw [hr]
        exact ⟨hwf.1, (pushUndoHist_wf s hwf).1, (pushUndoHist_wf s hwf).2⟩
    | back =>
      by_cases hmem : aid ∈ s.drawOrder
      · have hr : reducer s (.REORDER_ANNOTATION aid .back)
            = { s with history := pushUndoHist s
                       drawOrder := aid :: s.drawOrder.erase aid } := by
          show (if aid ∈ s.drawOrder then _ else _ : TabState) = _
          rw [if_pos hmem]
        rw [hr]
        have hscene : sceneWF s.stepIndicators s.shapes s.textAnnots
            (aid :: s.drawOrder.erase aid) := by
          intro i
          obtain ⟨hc, hle⟩ := hwf.1 i
          rw [count_cons_erase_self aid i _ hmem]
          exact ⟨hc, hle⟩
        exact ⟨hscene, (pushUndoHist_wf s hwf).1, (pushUndoHist_wf s hwf).2⟩
      · have hr : reducer s (.REORDER_ANNOTATION aid .back)
            = { s with history := pushUndoHist s } := by
          show (if aid ∈ s.drawOrder then _ else _ : TabState) = _
          rw [if_neg hmem]
        rw [hr]
        exact ⟨hwf.1, (pushUndoHist_wf s hwf).1, (pushUndoHist_wf s hwf).2⟩

theorem okRun_wf (acts : List Action) :
    ∀ s : TabState, stateWF s → okRun s acts → stateWF (applyActions s acts) := by
  induction acts with
  | nil => intro s h _; exact h
  | cons a rest ih =>
    intro s h hok
    exact ih (reducer s a) (stateWF_preserve a s h hok.1) hok.2

theorem stateWF_init (tab : Tab) : stateWF (initTabState tab) := by
  refine ⟨?_, ?_, ?_⟩
  · intro i
    simp [initTabState]
  · intro p hp
    exact absurd hp (List.not_mem_nil p)
  · intro p hp
    exact absurd hp (List.not_mem_nil p)

theorem stateWF_sceneInvariant (s : TabState) (h : stateWF s) : sceneInvariant s := by
  intro i
  obtain ⟨hc, hle⟩ := h.1 i
  have hA : (memSteps s i = true ∧ (s.stepIndicators.map StepIndicator.id).count i = 1)
      ∨ (memSteps s i = false ∧ (s.stepIndicators.map StepIndicator.id).count i = 0) := by
    cases hb : memSteps s i
    · exact Or.inr ⟨rfl, count_zero_of_memSteps_false s i hb⟩
    · have hpos : 0 < (s.stepIndicators.map StepIndicator.id).count i :=
        List.count_pos_iff.mpr ((memSteps_iff s i).mp hb)
      exact Or.inl ⟨rfl, by omega⟩
  have hB : (memShapes s i = true ∧ (s.shapes.map Shape.id).count i = 1)
      ∨ (memShapes s i = false ∧ (s.shapes.map Shape.id).count i = 0) := by
    cases hb : memShapes s i
    · exact Or.inr ⟨rfl, count_zero_of_memShapes_false s i hb⟩
    · have hpos : 0 < (s.shapes.map Shape.id).count i :=
        List.count_pos_iff.mpr ((memShapes_iff s i).mp hb)
      exact Or.inl ⟨rfl, by omega⟩
  have hC : (memTexts s i = true ∧ (s.textAnnots.map TextAnnot.id).count i = 1)
      ∨ (memTexts s i = false ∧ (s.textAnnots.map TextAnnot.id).count i = 0) := by
    cases hb : memTexts s i
    · exact Or.inr ⟨rfl, count_zero_of_memTexts_false s i hb⟩
    · have hpos : 0 < (s.textAnnots.map TextAnnot.id).count i :=
        List.count_pos_iff.mpr ((memTexts_iff s i).mp hb)
      exact Or.inl ⟨rfl, by omega⟩
  have hmem : i ∈ s.drawOrder ↔ 0 < s.drawOrder.count i := List.count_pos_iff.symm
  rw [hmem, hc]
  rcases hA with ⟨e1, f1⟩ | ⟨e1, f1⟩ <;> rcases hB with ⟨e2, f2⟩ | ⟨e2, f2⟩ <;>
    rcases hC with ⟨e3, f3⟩ | ⟨e3, f3⟩ <;>
      simp [exactlyOne, e1, e2, e3, f1, f2, f3] <;> omega

/-- C1 (amended): starting from a freshly added tab, any sequence of the
listed reducer actions in which every `ADD_*` payload carries ids that are
fresh for the tab (and pairwise distinct within an `ADD_SHAPES` batch)
maintains the synchronisation invariant: an annotation id is in the tab's
draw order iff it is a member of exactly one of the step-indicator, shape
and text collections — every such action updates the collections and the
draw order atomically. -/
theorem c1_drawOrder_sync (tab : Tab) (acts : List Action)
    (h : okRun (initTabState tab) acts) :
    sceneInvariant (applyActions (initTabState tab) acts) :=
  stateWF_sceneInvariant _ (okRun_wf acts (initTabState tab) (stateWF_init tab) h)

/-- Witness for C1: a fresh-id run mixing adds, a removal, a reorder, an
undo and a redo keeps the draw order and the collections in sync. -/
theorem c1_drawOrder_sync_witness :
    sceneInvariant (applyActions (initTabState tab0)
      [.ADD_STEP_INDICATOR (mkStep "a" 1 1 "1."),
       .ADD_SHAPE (mkShape "b" .rect 0 0 50 50),
       .REORDER_ANNOTATION "a" .front,
       .REMOVE_ANNOTATION "a", .UNDO, .REDO]) := by
  apply c1_drawOrder_sync
  exact ⟨⟨by decide, by decide, by decide, by decide⟩,
    ⟨by decide, by decide, by decide, by decide⟩,
    trivial, trivial, trivial, trivial, trivial⟩

/-- Counterexample to C1 as stated: the reducer appends blindly, so adding a
step indicator and then a shape that reuse the same id `"a"` (a sequence the
claim's "any sequence of reducer actions" admits) puts `"a"` in two
collections at once while it sits twice in the draw order — the stated
iff with "exactly one collection" fails. -/
theorem c1_duplicate_id_cex :
    ¬ sceneInvariant (applyActions (initTabState tab0)
      [.ADD_STEP_INDICATOR (mkStep "a" 1 1 "1."),
       .ADD_SHAPE (mkShape "a" .rect 0 0 50 50)]) := by
  intro h
  have h2 := h "a"
  revert h2
  decide

end ImprovedPaint
